import Mathlib

/-!
Shallow embedding of `redmine/resources.py` (the `Resource` base class and the
per-type override points exercised by the claims): attribute values, the three
per-instance maps (`_decoded_attrs`, `_encoded_attrs`, `_changes`) with Python
dict semantics, the module-level mapping tables, the codec
(`decode`/`encode`/`bulk_decode`), `__getattr__`, `__setattr__`, `save`,
and `_representation`.
-/

namespace Redmine

/-- Python values as they occur in resource attribute maps: `None`, strings,
integers, `datetime.date` / `datetime.datetime` objects (abstracted to an
opaque numeric payload), dicts (association lists in insertion order), lists,
and the wrapper objects produced by the manager: a single wrapped resource
(`to_resource`), a wrapped resource set (`to_resource_set`) and a lazy
filtered collection (`filter`). -/
inductive Value where
  | none
  | str (s : String)
  | int (n : Int)
  | date (d : Nat)
  | datetime (d : Nat)
  | dict (fields : List (String × Value))
  | list (elems : List Value)
  | resource (typeName : String) (payload : Value)
  | resourceSet (typeName : String) (payload : Value)
  | collection (typeName : String) (filters : List (String × Value))
deriving Repr

mutual

/-- Structural equality test on `Value` (Python `==` restricted to the shapes
we model). -/
def Value.beq : Value → Value → Bool
  | .none, .none => true
  | .str a, .str b => a == b
  | .int a, .int b => a == b
  | .date a, .date b => a == b
  | .datetime a, .datetime b => a == b
  | .dict a, .dict b => Value.beqFields a b
  | .list a, .list b => Value.beqList a b
  | .resource t a, .resource u b => t == u && Value.beq a b
  | .resourceSet t a, .resourceSet u b => t == u && Value.beq a b
  | .collection t a, .collection u b => t == u && Value.beqFields a b
  | _, _ => false

def Value.beqFields : List (String × Value) → List (String × Value) → Bool
  | [], [] => true
  | (k, v) :: a, (l, w) :: b => k == l && Value.beq v w && Value.beqFields a b
  | _, _ => false

def Value.beqList : List Value → List Value → Bool
  | [], [] => true
  | v :: a, w :: b => Value.beq v w && Value.beqList a b
  | _, _ => false

end

instance : BEq Value := ⟨Value.beq⟩

/-- An attribute map with Python dict semantics: an association list in
insertion order, keys unique by construction of the operations. -/
abbrev AttrMap := List (String × Value)

/-- `m.get(k)`: `Some v` when the key is present (its stored value may be
`Value.none`). Keys are unique in any map built by these operations, so
first-occurrence lookup is Python dict lookup. -/
def AttrMap.find? : AttrMap → String → Option Value
  | [], _ => Option.none
  | p :: rest, k => if p.1 == k then some p.2 else AttrMap.find? rest k

/-- Python `m.get(k)` collapsed the way the source uses it: a missing key and
a stored `None` both give `None`. -/
def AttrMap.getv (m : AttrMap) (k : String) : Value :=
  (AttrMap.find? m k).getD Value.none

/-- Python `k in m`: key membership (a stored `None` counts as present). -/
def AttrMap.mem : AttrMap → String → Bool
  | [], _ => false
  | p :: rest, k => p.1 == k || AttrMap.mem rest k

/-- Python `m[k] = v`: replace in place when the key exists (position kept),
else append. -/
def AttrMap.set : AttrMap → String → Value → AttrMap
  | [], k, v => [(k, v)]
  | p :: rest, k, v =>
    if p.1 == k then (k, v) :: rest else p :: AttrMap.set rest k v

/-- Python `m.pop(k, None)`'s effect on the dict: drop the key if present
(keys are unique in a Python dict, so dropping every occurrence is the same
operation). -/
def AttrMap.pop : AttrMap → String → AttrMap
  | [], _ => []
  | p :: rest, k =>
    if p.1 == k then AttrMap.pop rest k else p :: AttrMap.pop rest k

/-- `dict.fromkeys(ks)` merged with explicit attributes, as in
`dict(dict.fromkeys(relations_includes), **attributes)`: every key of `ks`
first bound to `None`, then each attribute entry applied in order. -/
def AttrMap.fromKeysThen (ks : List String) (attrs : AttrMap) : AttrMap :=
  List.foldl (fun m p => AttrMap.set m p.1 p.2)
    (List.foldl (fun m k => AttrMap.set m k Value.none) [] ks) attrs

/-- `_RESOURCE_SET_MAP`: attributes that encode to a resource set. -/
def RESOURCE_SET_MAP : List (String × String) :=
  [("trackers", "Tracker"), ("issue_categories", "IssueCategory"),
   ("custom_fields", "CustomField"), ("groups", "Group"), ("users", "User"),
   ("memberships", "ProjectMembership"), ("relations", "IssueRelation"),
   ("attachments", "Attachment"), ("watchers", "User"),
   ("journals", "IssueJournal"), ("children", "Issue"), ("roles", "Role")]

/-- `_RESOURCE_MAP`: attributes that encode to a single resource. -/
def RESOURCE_MAP : List (String × String) :=
  [("author", "User"), ("assigned_to", "User"), ("project", "Project"),
   ("tracker", "Tracker"), ("status", "IssueStatus"), ("user", "User"),
   ("issue", "Issue"), ("priority", "Enumeration"),
   ("activity", "Enumeration"), ("category", "IssueCategory"),
   ("fixed_version", "Version")]

/-- `_RELATIONS_MAP`: relation attribute name to the resource type fetched. -/
def RELATIONS_MAP : List (String × String) :=
  [("wiki_pages", "WikiPage"), ("memberships", "ProjectMembership"),
   ("issue_categories", "IssueCategory"), ("versions", "Version"),
   ("news", "News"), ("relations", "IssueRelation"),
   ("time_entries", "TimeEntry"), ("issues", "Issue")]

/-- `_SINGLE_ATTR_ID_MAP`: `*_id` convenience names and the composite
attribute they mirror. -/
def SINGLE_ATTR_ID_MAP : List (String × String) :=
  [("parent_id", "parent"), ("project_id", "project"),
   ("tracker_id", "tracker"), ("priority_id", "priority"),
   ("assigned_to_id", "assigned_to"), ("category_id", "category"),
   ("fixed_version_id", "fixed_version"), ("parent_issue_id", "parent"),
   ("issue_id", "issue"), ("activity_id", "activity")]

/-- `_MULTIPLE_ATTR_ID_MAP`: `*_ids` convenience names and the composite
attribute they mirror. -/
def MULTIPLE_ATTR_ID_MAP : List (String × String) :=
  [("user_ids", "users"), ("role_ids", "roles")]

/-- Lookup in a module-level string map. -/
def mapLookup (m : List (String × String)) (k : String) : Option String :=
  (List.find? (fun p => p.1 == k) m).map (fun p => p.2)

/-- The `raise_attr_exception` connection setting: a boolean, or a list/tuple
of resource class names for which missing attributes raise. -/
inductive RaisePolicy where
  | bool (b : Bool)
  | list (names : List String)
deriving Repr

/-- Connection-level settings reached through `manager.redmine`:
`strftime`/`strptime` with the configured `date_format` and
`datetime_format` (abstracted to total format functions and partial parse
functions over our opaque date payloads), and the attribute-error policy. -/
structure Connection where
  formatDate : Nat → String
  formatDateTime : Nat → String
  parseDate : String → Option Nat
  parseDateTime : String → Option Nat
  raiseAttrException : RaisePolicy

/-- The static class-level configuration of a concrete resource type after
`__init__` has run: name of the class, `_relations`, `_includes`,
`_unconvertible`, the create/update readonly tuples as declared on the class
(before the `__init__` expansion by relations and includes, which
`createReadonly`/`updateReadonly` below perform), the resolved
`_relations_name`, the `_repr` preference list, and the attribute renamings
performed by the `decode` / `__setattr__` overrides of the concrete type
(identity for the base class; `from_date → from`, `to_date → to` for
`TimeEntry.decode`; `version_id → fixed_version_id` for `Issue`). -/
structure TypeConfig where
  name : String
  members : List String
  relations : List String
  includes : List String
  unconvertible : List String
  createReadonlyBase : List String
  updateReadonlyBase : List String
  relationsName : String
  reprTuples : List (List String)
  renameOnDecode : String → String
  renameOnSet : String → String

/-- `Resource._create_readonly` / `_update_readonly` defaults. -/
def BASE_READONLY : List String :=
  ["id", "created_on", "updated_on", "author", "user", "project", "issue"]

/-- `self._create_readonly` after `__init__`:
`_create_readonly += self._relations + self._includes`. -/
def TypeConfig.createReadonly (cfg : TypeConfig) : List String :=
  cfg.createReadonlyBase ++ cfg.relations ++ cfg.includes

/-- `self._update_readonly` after `__init__`. -/
def TypeConfig.updateReadonly (cfg : TypeConfig) : List String :=
  cfg.updateReadonlyBase ++ cfg.relations ++ cfg.includes

/-- Errors surfaced by the embedded operations. `attrError` is the bare
`AttributeError` for underscore names; `resourceAttrError`,
`readonlyAttrError` and `customFieldValueError` are the library's exceptions;
`typeError` / `keyError` / `indexError` are uncaught Python crashes;
`recursionError` is Python's recursion limit (reached when resolving
`internal_id` recurses through `__getattr__` without progress);
`managerError` is a network/transport failure propagated from the manager. -/
inductive Err where
  | attrError
  | resourceAttrError
  | readonlyAttrError
  | customFieldValueError
  | typeError
  | keyError
  | indexError
  | recursionError
  | managerError
deriving Repr, DecidableEq

/-- The external manager collaborator as `__getattr__` uses it for include
resolution: `getattr(self.refresh(itself=False, include=attr), attr)`
abstracted to a function of the instance's identity and the include name,
returning the attribute of the refreshed copy (`Value.none` when the
refreshed copy resolves it to the null sentinel; an error when the network
round trip or the refreshed copy's own attribute lookup raises). -/
structure Manager where
  fetchInclude : Value → String → Except Err Value

/-- A resource instance: its type configuration, the connection settings, the
manager, and the three per-instance maps `_decoded_attrs`, `_encoded_attrs`,
`_changes`. -/
structure RState where
  cfg : TypeConfig
  conn : Connection
  mgr : Manager
  decoded : AttrMap
  encoded : AttrMap
  changes : AttrMap

/-- `Resource.__init__`: seed `_decoded_attrs` with `None` for every relation
and include name, overridden by the supplied attributes; `_encoded_attrs` and
`_changes` start empty. -/
def RState.init (cfg : TypeConfig) (conn : Connection) (mgr : Manager)
    (attributes : AttrMap) : RState :=
  { cfg := cfg, conn := conn, mgr := mgr,
    decoded := AttrMap.fromKeysThen (cfg.relations ++ cfg.includes) attributes,
    encoded := [], changes := [] }

/-- `Resource.is_new`: `False if 'id' in self._decoded_attrs or 'created_on'
in self._decoded_attrs else True`. -/
def RState.isNew (s : RState) : Bool :=
  !(AttrMap.mem s.decoded "id" || AttrMap.mem s.decoded "created_on")

/-- `Resource.decode` with the concrete type's renaming layered on top
(`TimeEntry.decode` / `Issue.decode` rename the attribute and then call the
base implementation): a `date` value is formatted with `date_format`, a
`datetime` value with `datetime_format`, anything else passes through. -/
def decodeAttr (cfg : TypeConfig) (conn : Connection) (attr : String)
    (value : Value) : String × Value :=
  let attr := cfg.renameOnDecode attr
  match value with
  | Value.date d => (attr, Value.str (conn.formatDate d))
  | Value.datetime d => (attr, Value.str (conn.formatDateTime d))
  | v => (attr, v)

/-- `Resource.encode`: unconvertible names pass through; `_RESOURCE_MAP`
names wrap into a resource of the mapped type; `_RESOURCE_SET_MAP` names wrap
into a resource set; `parent` wraps using the instance's own type; otherwise
try `datetime.strptime` with `datetime_format`, then with `date_format`, and
on any parse failure (including non-string values, whose `strptime` raises
`TypeError`) return the value unchanged. -/
def encodeAttr (cfg : TypeConfig) (conn : Connection) (attr : String)
    (value : Value) : String × Value :=
  if attr ∈ cfg.unconvertible then (attr, value)
  else
    match mapLookup RESOURCE_MAP attr with
    | some t => (attr, Value.resource t value)
    | Option.none =>
      match mapLookup RESOURCE_SET_MAP attr with
      | some t => (attr, Value.resourceSet t value)
      | Option.none =>
        if attr == "parent" then (attr, Value.resource cfg.name value)
        else
          match value with
          | Value.str s =>
            match conn.parseDateTime s with
            | some d => (attr, Value.datetime d)
            | Option.none =>
              match conn.parseDate s with
              | some d => (attr, Value.date d)
              | Option.none => (attr, value)
          | v => (attr, v)

/-- `Resource.bulk_decode`: apply `decode` to every key of a dict, building a
new dict (`dict(cls.decode(attr, attrs[attr], manager) for attr in attrs)`). -/
def bulkDecode (cfg : TypeConfig) (conn : Connection) (attrs : AttrMap) :
    AttrMap :=
  List.foldl (fun m p =>
    let dv := decodeAttr cfg conn p.1 p.2
    AttrMap.set m dv.1 dv.2) [] attrs

/-- `v is None` (Python identity test against the `None` singleton). -/
def Value.isNone : Value → Bool
  | Value.none => true
  | _ => false

/-- `attr.startswith('_')`: the first character is an underscore. -/
def underscored (s : String) : Bool :=
  s.data.head? == some (Char.ofNat 95)

/-- Manager calls observable from `__getattr__`: a lazy `filter(**filters)`
on a sub-manager (relation resolution) and a `get(internal_id, include=attr)`
refresh (include resolution). -/
inductive Event where
  | filterFetch (typeName : String) (filters : List (String × Value))
  | includeFetch (id : Value) (attr : String)
deriving Repr

/-- Outcome of `__getattr__`: the returned value or raised exception, the
updated `_encoded_attrs` (the only map `__getattr__` mutates), and the
manager calls made. -/
structure GetResult where
  result : Except Err Value
  encoded : AttrMap
  events : List Event

/-- Tail of `__getattr__` after the three-way branch has produced `v` under
name `attr`: `if encoded is not None: self._encoded_attrs[attr] = encoded;
return encoded`, else the new-instance defaults
(`0 if attr in ('id', 'version') else ''`), else the
`raise_attr_exception` policy (raise `ResourceAttrError` when the policy is
the boolean `True` or a list/tuple containing this class's name, else return
`None`). -/
def finishGet (s : RState) (attr : String) (v : Value) (enc : AttrMap)
    (evs : List Event) : GetResult :=
  if !(Value.isNone v) then
    ⟨Except.ok v, AttrMap.set enc attr v, evs⟩
  else if s.isNew then
    ⟨Except.ok (if attr == "id" || attr == "version" then Value.int 0
                else Value.str ""), enc, evs⟩
  else
    match s.conn.raiseAttrException with
    | RaisePolicy.bool true => ⟨Except.error Err.resourceAttrError, enc, evs⟩
    | RaisePolicy.bool false => ⟨Except.ok Value.none, enc, evs⟩
    | RaisePolicy.list names =>
      if s.cfg.name ∈ names then ⟨Except.error Err.resourceAttrError, enc, evs⟩
      else ⟨Except.ok Value.none, enc, evs⟩

/-- `Resource.__getattr__`, fuelled: the relation and include branches resolve
`self.internal_id` (the base class's `internal_id` property is `self.id`,
which re-enters `__getattr__`), so recursion is bounded by fuel; exhausting it
models Python's `RecursionError` on a self-referential configuration.
Order of business: reject underscore names with `AttributeError`; return a
non-`None` cache hit; else encode a non-`None` decoded value (the name `attr`
is rebound to the name `encode` returns); else a relation name builds
`{relations_name}_id = internal_id` filters and calls `filter` on a
sub-manager for `_RELATIONS_MAP[attr]`; else an include name fetches
`getattr(self.refresh(itself=False, include=attr), attr)`; then `finishGet`
caches and returns, or falls through to defaults / the error policy. -/
def getattrFuel : Nat → RState → String → GetResult
  | 0, s, _ => ⟨Except.error Err.recursionError, s.encoded, []⟩
  | Nat.succ n, s, attr =>
    if underscored attr then ⟨Except.error Err.attrError, s.encoded, []⟩
    else
      let cached := AttrMap.getv s.encoded attr
      if !(Value.isNone cached) then ⟨Except.ok cached, s.encoded, []⟩
      else
        let decodedV := AttrMap.getv s.decoded attr
        if !(Value.isNone decodedV) then
          let p := encodeAttr s.cfg s.conn attr decodedV
          finishGet s p.1 p.2 s.encoded []
        else if attr ∈ s.cfg.relations then
          match getattrFuel n s "id" with
          | ⟨Except.error e, enc, evs⟩ => ⟨Except.error e, enc, evs⟩
          | ⟨Except.ok idv, enc, evs⟩ =>
            match mapLookup RELATIONS_MAP attr with
            | Option.none => ⟨Except.error Err.keyError, enc, evs⟩
            | some t =>
              let filters := [(s.cfg.relationsName ++ "_id", idv)]
              finishGet { s with encoded := enc } attr
                (Value.collection t filters) enc
                (evs ++ [Event.filterFetch t filters])
        else if attr ∈ s.cfg.includes then
          match getattrFuel n s "id" with
          | ⟨Except.error e, enc, evs⟩ => ⟨Except.error e, enc, evs⟩
          | ⟨Except.ok idv, enc, evs⟩ =>
            match s.mgr.fetchInclude idv attr with
            | Except.error e =>
              ⟨Except.error e, enc, evs ++ [Event.includeFetch idv attr]⟩
            | Except.ok v =>
              finishGet { s with encoded := enc } attr v enc
                (evs ++ [Event.includeFetch idv attr])
        else
          finishGet s attr Value.none s.encoded []

/-- `Resource.__getattr__` with enough fuel for every configuration in the
source (none puts `id` among its relations or includes, so `internal_id`
resolution never re-enters the relation/include branches). -/
def resourceGetattr (s : RState) (attr : String) : GetResult :=
  getattrFuel 2 s attr

/-- Python iteration over the value shapes we model: lists yield their
elements, strings their characters (as one-character strings), dicts their
keys; everything else raises `TypeError`. -/
def pyIter : Value → Option (List Value)
  | Value.list l => some l
  | Value.str s => some (List.map (fun c => Value.str (String.mk [c])) s.data)
  | Value.dict fs => some (List.map (fun p => Value.str p.1) fs)
  | _ => Option.none

/-- A Python dict keyed by attribute values (the `new` dict of the
custom-fields merge, keyed by `field['id']`). -/
abbrev PyDict := List (Value × Value)

/-- Dict lookup by `==` on keys (keys unique by construction). -/
def PyDict.find? : PyDict → Value → Option Value
  | [], _ => Option.none
  | p :: rest, k => if Value.beq p.1 k then some p.2 else PyDict.find? rest k

/-- Dict insert: replace in place when the key exists, else append. -/
def PyDict.set : PyDict → Value → Value → PyDict
  | [], k, v => [(k, v)]
  | p :: rest, k, v =>
    if Value.beq p.1 k then (k, v) :: rest else p :: PyDict.set rest k v

/-- `m.pop(k)`'s effect on the dict (keys unique by construction, so
dropping every occurrence is the same operation). -/
def PyDict.pop : PyDict → Value → PyDict
  | [], _ => []
  | p :: rest, k =>
    if Value.beq p.1 k then PyDict.pop rest k else p :: PyDict.pop rest k

/-- `list(m.values())` in insertion order. -/
def PyDict.values (m : PyDict) : List Value :=
  List.map (fun p => p.2) m

/-- One step of the `new` dict construction: index the element with `'id'`
and bulk-decode it; a non-mapping element or a missing `id` key is the
`TypeError`/`KeyError` the caller turns into `CustomFieldValueError`. -/
def cfNewStep (cfg : TypeConfig) (conn : Connection) (d : PyDict)
    (f : Value) : Except Err PyDict :=
  match f with
  | Value.dict fs =>
    if AttrMap.mem fs "id" then
      Except.ok (PyDict.set d (AttrMap.getv fs "id")
        (Value.dict (bulkDecode cfg conn fs)))
    else Except.error Err.customFieldValueError
  | _ => Except.error Err.customFieldValueError

/-- `dict((field['id'], self.bulk_decode(field, self.manager)) for field in
value)`: iterate the incoming value and run `cfNewStep` over it. Keys are
the raw (pre-decode) ids; a duplicate id keeps its first position and the
last value. -/
def buildCFNew (cfg : TypeConfig) (conn : Connection) (value : Value) :
    Except Err PyDict :=
  match pyIter value with
  | Option.none => Except.error Err.customFieldValueError
  | some fields => List.foldlM (cfNewStep cfg conn) [] fields

/-- The in-place replacement loop of the custom-fields merge: walk the stored
fields in order; a stored field whose `id` is a key of `new` is replaced by
`new.pop(id)` (so a later stored duplicate no longer matches); others are
kept. A stored field that is not a dict raises `TypeError`, one without an
`id` key raises `KeyError` — both uncaught. Returns the rewritten list and
the unconsumed remainder of `new`. -/
def cfReplace : List Value → PyDict → Except Err (List Value × PyDict)
  | [], newd => Except.ok ([], newd)
  | f :: rest, newd =>
    match f with
    | Value.dict fs =>
      if AttrMap.mem fs "id" then
        let fid := AttrMap.getv fs "id"
        match PyDict.find? newd fid with
        | some repl =>
          match cfReplace rest (PyDict.pop newd fid) with
          | Except.ok p => Except.ok (repl :: p.1, p.2)
          | Except.error e => Except.error e
        | Option.none =>
          match cfReplace rest newd with
          | Except.ok p => Except.ok (f :: p.1, p.2)
          | Except.error e => Except.error e
      else Except.error Err.keyError
    | _ => Except.error Err.typeError

/-- Outcome of `__setattr__`: unit or a raised exception, and the instance
state after the call. -/
structure SetResult where
  result : Except Err Unit
  state : RState

/-- The `custom_fields` branch of `__setattr__` (after the readonly guard):
build the `new` dict (malformed input becomes `CustomFieldValueError`),
replace matching stored fields in place via `cfReplace`, append the
unconsumed incoming fields, store the merged list in `_decoded_attrs` and
`_changes`, and pop the written name from `_encoded_attrs`. -/
def setCustomFields (s : RState) (attr : String) (value : Value) : SetResult :=
  match buildCFNew s.cfg s.conn value with
  | Except.error _ => ⟨Except.error Err.customFieldValueError, s⟩
  | Except.ok newd =>
    match AttrMap.find? s.decoded "custom_fields" with
    | some (Value.list fields) =>
      match cfReplace fields newd with
      | Except.error e => ⟨Except.error e, s⟩
      | Except.ok p =>
        let merged := Value.list (p.1 ++ PyDict.values p.2)
        ⟨Except.ok (),
         { s with decoded := AttrMap.set s.decoded "custom_fields" merged,
                  changes := AttrMap.set s.changes "custom_fields" merged,
                  encoded := AttrMap.pop s.encoded attr }⟩
    | Option.none =>
      let merged := Value.list (PyDict.values newd)
      ⟨Except.ok (),
       { s with decoded := AttrMap.set s.decoded "custom_fields" merged,
                changes := AttrMap.set s.changes "custom_fields" merged,
                encoded := AttrMap.pop s.encoded attr }⟩
    | some _ => ⟨Except.error Err.typeError, s⟩

/-- The plain-attribute branch of `__setattr__` (after the readonly guard):
decode the pair, store the value in `_changes` under the decoded name and in
`_decoded_attrs` under the written name, mirror the `_SINGLE_ATTR_ID_MAP` /
`_MULTIPLE_ATTR_ID_MAP` composites, then pop the written name from
`_encoded_attrs` (iterating a non-iterable multi-id value raises `TypeError`
after the first two stores). -/
def setPlain (s : RState) (attr : String) (value : Value) : SetResult :=
  let p := decodeAttr s.cfg s.conn attr value
  let changes1 := AttrMap.set s.changes p.1 p.2
  let decoded1 := AttrMap.set s.decoded attr p.2
  match mapLookup SINGLE_ATTR_ID_MAP attr with
  | some comp =>
    ⟨Except.ok (),
     { s with changes := changes1,
              decoded := AttrMap.set decoded1 comp (Value.dict [("id", p.2)]),
              encoded := AttrMap.pop s.encoded attr }⟩
  | Option.none =>
    match mapLookup MULTIPLE_ATTR_ID_MAP attr with
    | some comp =>
      match pyIter p.2 with
      | Option.none =>
        ⟨Except.error Err.typeError,
         { s with changes := changes1, decoded := decoded1 }⟩
      | some elems =>
        ⟨Except.ok (),
         { s with changes := changes1,
                  decoded := AttrMap.set decoded1 comp
                    (Value.list (List.map (fun e => Value.dict [("id", e)]) elems)),
                  encoded := AttrMap.pop s.encoded attr }⟩
    | Option.none =>
      ⟨Except.ok (),
       { s with changes := changes1, decoded := decoded1,
                encoded := AttrMap.pop s.encoded attr }⟩

/-- The body of `Resource.__setattr__` once the concrete type's rename has
resolved the written name. Order of business: names in `_members` or
starting with an underscore go to `object.__setattr__` (plain Python
instance attributes, outside the three maps — modelled as a no-op on them);
names in the readonly set for the current lifecycle state raise
`ReadonlyAttrError`; `custom_fields` runs the merge branch; every other name
runs the plain branch. An uncaught crash inside the merge replacement loop
leaves a partially rewritten list in Python; the claims never reach that
state and it is modelled as the pre-call state. -/
def setattrResolved (s : RState) (attr : String) (value : Value) :
    SetResult :=
  if attr ∈ s.cfg.members ∨ underscored attr then
    ⟨Except.ok (), s⟩
  else if attr ∈ s.cfg.createReadonly ∧ s.isNew then
    ⟨Except.error Err.readonlyAttrError, s⟩
  else if attr ∈ s.cfg.updateReadonly ∧ ¬ s.isNew then
    ⟨Except.error Err.readonlyAttrError, s⟩
  else if attr == "custom_fields" then
    setCustomFields s attr value
  else
    setPlain s attr value

/-- `Resource.__setattr__`: the concrete type's rename first
(`Issue.__setattr__` rewrites `version_id` to `fixed_version_id` before
delegating), then the guarded body. -/
def resourceSetattr (s : RState) (attr0 : String) (value : Value) :
    SetResult :=
  setattrResolved s (s.cfg.renameOnSet attr0) value

/-- Hook and manager calls made by `save`, in order. -/
inductive SEvent where
  | preUpdate
  | updateCall (id : Value) (changes : AttrMap)
  | postUpdate
  | preCreate
  | createCall (changes : AttrMap)
  | postCreate
deriving Repr

/-- The manager operations `save` reaches, plus the client clock:
`manager.update(internal_id, **changes)`, `manager.create(**changes)` (whose
result's `raw()` replaces `_decoded_attrs`), and
`datetime.utcnow().strftime(datetime_format)`. -/
structure SaveIO where
  update : Value → AttrMap → Except Err Unit
  create : AttrMap → Except Err AttrMap
  now : String

/-- Outcome of `save`: the returned `True` or the propagated exception, the
instance state after the call, and the hook/manager call trace. -/
structure SaveResult where
  result : Except Err Bool
  state : RState
  events : List SEvent

/-- `Resource.save`: persisted instances run `pre_update`, submit `_changes`
to `manager.update` keyed by `internal_id` (whose resolution through
`__getattr__` may populate the `id` cache entry), stamp the client's current
time into `_decoded_attrs['updated_on']`, and run `post_update`; new
instances run `pre_create`, submit `_changes` to `manager.create` and replace
`_decoded_attrs` wholesale with the response's `raw()`, then run
`post_create`. Both paths then clear `_changes` and return `True`. A raised
manager call propagates before the stamp/replace/clear steps run. The base
hooks are no-ops, recorded in the trace as the extension points they are. -/
def resourceSave (s : RState) (io : SaveIO) : SaveResult :=
  if ¬ s.isNew then
    match resourceGetattr s "id" with
    | ⟨Except.error e, enc, _⟩ =>
      ⟨Except.error e, { s with encoded := enc }, [SEvent.preUpdate]⟩
    | ⟨Except.ok idv, enc, _⟩ =>
      let s1 := { s with encoded := enc }
      match io.update idv s.changes with
      | Except.error e =>
        ⟨Except.error e, s1,
         [SEvent.preUpdate, SEvent.updateCall idv s.changes]⟩
      | Except.ok _ =>
        ⟨Except.ok true,
         { s1 with
             decoded := AttrMap.set s1.decoded "updated_on" (Value.str io.now),
             changes := [] },
         [SEvent.preUpdate, SEvent.updateCall idv s.changes, SEvent.postUpdate]⟩
  else
    match io.create s.changes with
    | Except.error e =>
      ⟨Except.error e, s, [SEvent.preCreate, SEvent.createCall s.changes]⟩
    | Except.ok raw =>
      ⟨Except.ok true, { s with decoded := raw, changes := [] },
       [SEvent.preCreate, SEvent.createCall s.changes, SEvent.postCreate]⟩

/-- `Resource.refresh(itself=True)`: fetch by `internal_id` through
`manager.get`, then clear `_encoded_attrs` and replace `_decoded_attrs` with
the fetched resource's `raw()`; `_changes` is untouched. A raised fetch
leaves the maps as they were (bar the `id` cache entry from resolving
`internal_id`). -/
def refreshItself (s : RState) (fetch : Value → Except Err AttrMap) :
    Except Err Unit × RState :=
  match resourceGetattr s "id" with
  | ⟨Except.error e, enc, _⟩ => (Except.error e, { s with encoded := enc })
  | ⟨Except.ok idv, enc, _⟩ =>
    match fetch idv with
    | Except.error e => (Except.error e, { s with encoded := enc })
    | Except.ok raw =>
      (Except.ok (), { s with decoded := raw, encoded := [] })

/-- The inner loop of `_representation` over one (already reversed) attribute
tuple: `value = getattr(self, attr, None)` — `AttributeError` and its
library subclass `ResourceAttrError` are absorbed by the `getattr` default —
then `break` on `None`, else prepend to `_repr_` and, when the attribute is
not `id`, to `_str_`. Accumulators are threaded so prepending appears as a
final cons order. -/
def reprScan : RState → List String → List Value → List Value →
    Except Err (List Value × List Value × RState)
  | s, [], strAcc, reprAcc => Except.ok (strAcc, reprAcc, s)
  | s, attr :: rest, strAcc, reprAcc =>
    let g := resourceGetattr s attr
    let s' := { s with encoded := g.encoded }
    match g.result with
    | Except.error Err.attrError => Except.ok (strAcc, reprAcc, s')
    | Except.error Err.resourceAttrError => Except.ok (strAcc, reprAcc, s')
    | Except.error e => Except.error e
    | Except.ok v =>
      if Value.isNone v then Except.ok (strAcc, reprAcc, s')
      else
        reprScan s' rest (if attr == "id" then strAcc else v :: strAcc)
          (v :: reprAcc)

/-- The outer loop of `_representation`: try each `_repr` tuple in order and
stop at the first whose scan collected anything (`if len(_repr_) > 0:
break`). The Python accumulators live across iterations, but a tuple only
passes them on empty, so per-tuple fresh accumulators are equivalent. -/
def reprTuplesLoop : RState → List (List String) →
    Except Err (List Value × List Value × RState)
  | s, [] => Except.ok ([], [], s)
  | s, attrs :: rest =>
    match reprScan s attrs.reverse [] [] with
    | Except.error e => Except.error e
    | Except.ok (strAcc, reprAcc, s') =>
      if reprAcc.length > 0 then Except.ok (strAcc, reprAcc, s')
      else reprTuplesLoop s' rest

/-- `Resource._representation` up to the target split: the `_str_` and
`_repr_` lists after the tuple loop and the new-instance truncation
(`if self.is_new() and len(_repr_) > 2: drop the last element of both`). -/
def representationLists (s : RState) :
    Except Err (List Value × List Value × RState) :=
  match reprTuplesLoop s s.cfg.reprTuples with
  | Except.error e => Except.error e
  | Except.ok (strL, reprL, s') =>
    if s'.isNew ∧ reprL.length > 2 then
      Except.ok (strL.dropLast, reprL.dropLast, s')
    else Except.ok (strL, reprL, s')

/-- `str()` on the value shapes the representation claims reach. -/
def pyStr : Value → String
  | Value.str s => s
  | Value.int n => toString n
  | _ => ""

/-- `' '.join(xs)`: every element must be a string, else `TypeError`. -/
def joinStrs : List Value → Option String
  | [] => some ""
  | [Value.str a] => some a
  | Value.str a :: rest =>
    (joinStrs rest).map (fun r => a ++ " " ++ r)
  | _ => Option.none

/-- `Resource.__str__`: `' '.join(self._representation('str'))`, where the
`'str'` target returns `_str_` when non-empty and otherwise
`[str(_repr_[0])]` (an `IndexError` when both lists are empty). -/
def resourceStr (s : RState) : Except Err String :=
  match representationLists s with
  | Except.error e => Except.error e
  | Except.ok (strL, reprL, _) =>
    if strL.isEmpty then
      match reprL with
      | [] => Except.error Err.indexError
      | v :: _ => Except.ok (pyStr v)
    else
      match joinStrs strL with
      | Option.none => Except.error Err.typeError
      | some out => Except.ok out

/-- The base class's configuration (`Resource` itself), parameterised by a
class name: `_members = ('manager',)`, no relations or includes,
`_unconvertible = ('name', 'description')`, the default readonly tuples,
`_relations_name = cls.__name__.lower()`, `_repr = (('id', 'name'),)`, and no
renames. -/
def baseConfig (name : String) : TypeConfig :=
  { name := name, members := ["manager"], relations := [], includes := [],
    unconvertible := ["name", "description"],
    createReadonlyBase := BASE_READONLY, updateReadonlyBase := BASE_READONLY,
    relationsName := name.toLower, reprTuples := [["id", "name"]],
    renameOnDecode := fun a => a, renameOnSet := fun a => a }

/-- `Issue`'s configuration: relations, includes, extra unconvertibles,
`spent_hours` added to both readonly tuples, `_repr`, and the
`version_id → fixed_version_id` renames of its `decode` / `__setattr__`. -/
def issueConfig : TypeConfig :=
  { name := "Issue", members := ["manager"],
    relations := ["relations", "time_entries"],
    includes := ["children", "attachments", "relations", "changesets",
                 "journals", "watchers"],
    unconvertible := ["name", "description", "subject", "notes"],
    createReadonlyBase := BASE_READONLY ++ ["spent_hours"],
    updateReadonlyBase := BASE_READONLY ++ ["spent_hours"],
    relationsName := "issue",
    reprTuples := [["id", "subject"], ["id"]],
    renameOnDecode := fun a => if a == "version_id" then "fixed_version_id" else a,
    renameOnSet := fun a => if a == "version_id" then "fixed_version_id" else a }

/-- `TimeEntry`'s configuration: `_repr = (('id',),)` and the
`from_date → from`, `to_date → to` renames of its `decode`. -/
def timeEntryConfig : TypeConfig :=
  { name := "TimeEntry", members := ["manager"], relations := [],
    includes := [],
    unconvertible := ["name", "description"],
    createReadonlyBase := BASE_READONLY, updateReadonlyBase := BASE_READONLY,
    relationsName := "timeentry", reprTuples := [["id"]],
    renameOnDecode := fun a =>
      if a == "from_date" then "from" else if a == "to_date" then "to" else a,
    renameOnSet := fun a => a }

/-- `User`'s configuration: relations `issues`/`time_entries`, includes
`memberships`/`groups`, `_relations_name = 'assigned_to'`,
`_unconvertible = ('status',)`, `api_key`/`last_login_on` added to both
readonly tuples, and the two-tuple `_repr` preference list. -/
def userConfig : TypeConfig :=
  { name := "User", members := ["manager"],
    relations := ["issues", "time_entries"],
    includes := ["memberships", "groups"],
    unconvertible := ["status"],
    createReadonlyBase := BASE_READONLY ++ ["api_key", "last_login_on"],
    updateReadonlyBase := BASE_READONLY ++ ["api_key", "last_login_on"],
    relationsName := "assigned_to",
    reprTuples := [["id", "firstname", "lastname"], ["id", "name"]],
    renameOnDecode := fun a => a, renameOnSet := fun a => a }

/-- `Project`'s configuration: includes, the seven relations, extra
unconvertibles and the `identifier` update-readonly addition. -/
def projectConfig : TypeConfig :=
  { name := "Project", members := ["manager"],
    relations := ["wiki_pages", "memberships", "issue_categories",
                  "time_entries", "versions", "news", "issues"],
    includes := ["trackers", "issue_categories", "enabled_modules"],
    unconvertible := ["name", "description", "identifier", "status"],
    createReadonlyBase := BASE_READONLY,
    updateReadonlyBase := BASE_READONLY ++ ["identifier"],
    relationsName := "project", reprTuples := [["id", "name"]],
    renameOnDecode := fun a => a, renameOnSet := fun a => a }

/-- A concrete connection for evaluation: recognisable formats, parsers that
accept exactly one date-time string and one date string. -/
def testConn (policy : RaisePolicy) : Connection :=
  { formatDate := fun d => "date:" ++ toString d,
    formatDateTime := fun d => "datetime:" ++ toString d,
    parseDate := fun s => if s == "2024-01-02" then some 12 else Option.none,
    parseDateTime := fun s =>
      if s == "2024-01-02T03:04:05Z" then some 345 else Option.none,
    raiseAttrException := policy }

/-- A manager whose include fetches always fail (claims that never reach an
include fetch use it). -/
def noFetchMgr : Manager := ⟨fun _ _ => Except.error Err.managerError⟩

/-- A manager whose include fetch returns a fixed wrapped resource set. -/
def constFetchMgr (v : Value) : Manager := ⟨fun _ _ => Except.ok v⟩

/-- The public mutating operations of a resource instance: attribute writes,
`save`, and in-place `refresh`. -/
inductive Op where
  | setOp (attr : String) (value : Value)
  | saveOp (io : SaveIO)
  | refreshOp (fetch : Value → Except Err AttrMap)

/-- Run one operation, keeping whatever state it leaves behind (also on a
raised exception). -/
def execOp (s : RState) : Op → RState
  | Op.setOp a v => (resourceSetattr s a v).state
  | Op.saveOp io => (resourceSave s io).state
  | Op.refreshOp f => (refreshItself s f).2

/-- Run a sequence of operations. -/
def execOps : RState → List Op → RState
  | s, [] => s
  | s, op :: ops => execOps (execOp s op) ops

/-- No relation or include name of the type has an entry in `_changes`. -/
def noRelIncInChanges (s : RState) : Prop :=
  ∀ a, (a ∈ s.cfg.relations ∨ a ∈ s.cfg.includes) →
    AttrMap.mem s.changes a = false

/-- The decode rename of the type never turns a non-relation/include name
into a relation or include name (true of the identity rename and of the
`TimeEntry`/`Issue` renames). -/
def decodeRenameSafe (cfg : TypeConfig) : Prop :=
  ∀ b, b ∉ cfg.relations → b ∉ cfg.includes →
    cfg.renameOnDecode b ∉ cfg.relations ∧ cfg.renameOnDecode b ∉ cfg.includes

/-- A well-formed custom field: a mapping containing an `id` key. -/
def goodField : Value → Bool
  | Value.dict fs => AttrMap.mem fs "id"
  | _ => false

/-- `field['id']` for a well-formed field (`None` for the rest). -/
def fieldIdOf : Value → Value
  | Value.dict fs => AttrMap.getv fs "id"
  | _ => Value.none

/-- `bulk_decode` applied to a custom-field mapping. -/
def decodedField (cfg : TypeConfig) (conn : Connection) : Value → Value
  | Value.dict fs => Value.dict (bulkDecode cfg conn fs)
  | v => v

/-- The custom-field merge as the specification words it: the stored fields
are scanned in order, a stored field whose id matches an incoming one is
replaced in place by that incoming field's decoded form, and the incoming
fields matching no stored id are appended in order, decoded. -/
def specMergeCF (cfg : TypeConfig) (conn : Connection)
    (ex : List Value) (fields : List Value) : List Value :=
  List.map (fun g =>
    match List.find? (fun f => Value.beq (fieldIdOf f) (fieldIdOf g)) fields
    with
    | some f => decodedField cfg conn f
    | Option.none => g) ex ++
  List.map (decodedField cfg conn)
    (List.filter
      (fun f => !(List.any ex (fun g => Value.beq (fieldIdOf f) (fieldIdOf g))))
      fields)

/-- One tuple of the representation preference list, resolved as the
specification words it: every attribute of the (already reversed) tuple must
resolve to a non-absent value via `get` (an attribute error counts as
absent), else the whole tuple is abandoned. -/
def specScan : RState → List String → List Value → List Value →
    Option (List Value × List Value × RState)
  | s, [], strAcc, reprAcc => some (strAcc, reprAcc, s)
  | s, attr :: rest, strAcc, reprAcc =>
    let g := resourceGetattr s attr
    let s2 := { s with encoded := g.encoded }
    let v := match g.result with
      | Except.ok w => w
      | Except.error _ => Value.none
    if Value.isNone v then Option.none
    else
      specScan s2 rest (if attr == "id" then strAcc else v :: strAcc)
        (v :: reprAcc)

/-- The representation tuple loop as the specification words it: the first
tuple whose attributes all resolve is accepted. -/
def specReprTuples : RState → List (List String) →
    (List Value × List Value × RState)
  | s, [] => ([], [], s)
  | s, attrs :: rest =>
    match specScan s attrs.reverse [] [] with
    | some r => r
    | Option.none => specReprTuples s rest

/-- `_representation`'s value pair as the specification words it (attributes
of a tuple resolve all-or-nothing; the new-instance truncation then applies
to the accepted, fully resolved tuple). -/
def specRepresentationLists (s : RState) :
    List Value × List Value × RState :=
  match specReprTuples s s.cfg.reprTuples with
  | (strL, reprL, s2) =>
    if s2.isNew ∧ reprL.length > 2 then
      (strL.dropLast, reprL.dropLast, s2)
    else (strL, reprL, s2)

/-- An attribute access that `_representation` treats as absent: the
`getattr(self, attr, None)` default absorbs `AttributeError` and its library
subclass, and a returned `None` hits the `if value is None: break`. -/
def absentGet (r : Except Err Value) : Prop :=
  r = Except.error Err.attrError ∨ r = Except.error Err.resourceAttrError ∨
  r = Except.ok Value.none

/-- A persisted `User` whose `firstname` was never loaded: `id` and
`lastname` and `name` are known, the error policy returns `None`. -/
def userDoeState : RState :=
  { cfg := userConfig, conn := testConn (RaisePolicy.bool false),
    mgr := noFetchMgr,
    decoded := [("id", Value.int 5), ("lastname", Value.str "Doe"),
                ("name", Value.str "Mr Doe")],
    encoded := [], changes := [] }

/-- The claim's example: a freshly constructed (new) `Issue` with `id`
absent and `subject = "Fix bug"`. -/
def issueNewFixBug : RState :=
  RState.init issueConfig (testConn (RaisePolicy.bool false)) noFetchMgr
    [("subject", Value.str "Fix bug")]

/-- A new `User` (no `id`, no `created_on`) with both name parts known, so
the three-attribute `_repr` tuple resolves fully. -/
def userNewJohnDoe : RState :=
  { cfg := userConfig, conn := testConn (RaisePolicy.bool false),
    mgr := noFetchMgr,
    decoded := [("firstname", Value.str "John"),
                ("lastname", Value.str "Doe")],
    encoded := [], changes := [] }

/-! ### Dictionary lemmas -/

theorem AttrMap.find?_set_self (m : AttrMap) (k : String) (v : Value) :
    AttrMap.find? (AttrMap.set m k v) k = some v := by
  induction m with
  | nil => simp [AttrMap.set, AttrMap.find?]
  | cons p rest ih =>
    by_cases hp : p.1 == k
    · simp [AttrMap.set, AttrMap.find?, hp]
    · simp only [AttrMap.set, hp, if_false, AttrMap.find?]
      exact ih

theorem AttrMap.getv_set_self (m : AttrMap) (k : String) (v : Value) :
    AttrMap.getv (AttrMap.set m k v) k = v := by
  unfold AttrMap.getv
  rw [AttrMap.find?_set_self]
  rfl

theorem AttrMap.find?_set_other (m : AttrMap) (k k' : String) (v : Value)
    (h : k' ≠ k) :
    AttrMap.find? (AttrMap.set m k v) k' = AttrMap.find? m k' := by
  have hbeq : (k == k') = false := by
    simp only [beq_eq_false_iff_ne, ne_eq]
    exact fun e => h e.symm
  induction m with
  | nil => simp [AttrMap.set, AttrMap.find?, hbeq]
  | cons p rest ih =>
    by_cases hp : p.1 == k
    · have hpk : p.1 = k := eq_of_beq hp
      have hq : (p.1 == k') = false := by
        rw [hpk]
        exact hbeq
      simp [AttrMap.set, AttrMap.find?, hp, hq, hbeq, hpk]
    · simp only [AttrMap.set, hp, if_false, AttrMap.find?]
      by_cases hq2 : p.1 == k'
      · simp [hq2]
      · simp only [hq2, if_false]
        exact ih

theorem AttrMap.getv_set_other (m : AttrMap) (k k' : String) (v : Value)
    (h : k' ≠ k) :
    AttrMap.getv (AttrMap.set m k v) k' = AttrMap.getv m k' := by
  unfold AttrMap.getv
  rw [AttrMap.find?_set_other m k k' v h]

theorem AttrMap.find?_pop_self (m : AttrMap) (k : String) :
    AttrMap.find? (AttrMap.pop m k) k = Option.none := by
  induction m with
  | nil => rfl
  | cons p rest ih =>
    by_cases hp : p.1 == k
    · simp only [AttrMap.pop, hp, if_true]
      exact ih
    · simp only [AttrMap.pop, hp, if_false, AttrMap.find?]
      rw [if_neg Bool.false_ne_true]
      exact ih

theorem AttrMap.find?_pop_other (m : AttrMap) (k k' : String) (h : k' ≠ k) :
    AttrMap.find? (AttrMap.pop m k) k' = AttrMap.find? m k' := by
  induction m with
  | nil => simp [AttrMap.pop, AttrMap.find?]
  | cons p rest ih =>
    by_cases hp : p.1 == k
    · have hpk : p.1 = k := eq_of_beq hp
      have hq : (p.1 == k') = false := by
        simp only [beq_eq_false_iff_ne, ne_eq, hpk]
        exact fun e => h e.symm
      simp only [AttrMap.pop, hp, if_true, AttrMap.find?]
      rw [ih]
      simp [AttrMap.find?, hq]
    · simp only [AttrMap.pop, hp, if_false, AttrMap.find?]
      by_cases hq2 : p.1 == k'
      · simp [hq2]
      · simp only [hq2, if_false]
        exact ih

theorem AttrMap.getv_pop_other (m : AttrMap) (k k' : String) (h : k' ≠ k) :
    AttrMap.getv (AttrMap.pop m k) k' = AttrMap.getv m k' := by
  unfold AttrMap.getv
  rw [AttrMap.find?_pop_other m k k' h]

theorem AttrMap.mem_pop_other (m : AttrMap) (k k' : String) (h : k' ≠ k) :
    AttrMap.mem (AttrMap.pop m k) k' = AttrMap.mem m k' := by
  induction m with
  | nil => simp [AttrMap.pop, AttrMap.mem]
  | cons p rest ih =>
    by_cases hp : p.1 == k
    · have hpk : p.1 = k := eq_of_beq hp
      have hq : (p.1 == k') = false := by
        simp only [beq_eq_false_iff_ne, ne_eq, hpk]
        exact fun e => h e.symm
      simp only [AttrMap.pop, hp, if_true, AttrMap.mem, hq, Bool.false_or]
      exact ih
    · simp only [AttrMap.pop, hp, if_false, AttrMap.mem]
      rw [ih]

theorem AttrMap.mem_set (m : AttrMap) (k k' : String) (v : Value) :
    AttrMap.mem (AttrMap.set m k v) k' = ((k == k') || AttrMap.mem m k') := by
  induction m with
  | nil => simp [AttrMap.set, AttrMap.mem]
  | cons p rest ih =>
    by_cases hp : p.1 == k
    · have hpk : p.1 = k := eq_of_beq hp
      simp only [AttrMap.set, hpk, BEq.refl, if_true, AttrMap.mem]
      cases hkk : k == k' <;> simp [hkk]
    · simp only [AttrMap.set, hp, if_false, AttrMap.mem, ih]
      cases hq : p.1 == k' <;> cases hkk : k == k' <;> simp

/-- `encode` never renames the attribute in the base class (every branch
returns the incoming name). -/
theorem encodeAttr_name (cfg : TypeConfig) (conn : Connection) (attr : String)
    (v : Value) : (encodeAttr cfg conn attr v).1 = attr := by
  unfold encodeAttr
  by_cases h1 : attr ∈ cfg.unconvertible
  · simp [h1]
  · simp only [h1, if_false]
    cases mapLookup RESOURCE_MAP attr
    · cases mapLookup RESOURCE_SET_MAP attr
      · by_cases h2 : attr == "parent"
        · simp [h2]
        · simp only [h2, if_false]
          cases v with
          | str s =>
            cases hdt : conn.parseDateTime s
            · cases hd : conn.parseDate s
              · simp [hdt, hd]
              · simp [hdt, hd]
            · simp [hdt]
          | none => simp
          | int n => simp
          | date d => simp
          | datetime d => simp
          | dict fs => simp
          | list l => simp
          | resource t p => simp
          | resourceSet t p => simp
          | collection t f => simp
      · simp
    · simp

/-- `encode` of a non-`None` value is non-`None` in every branch. -/
theorem encodeAttr_nonnone (cfg : TypeConfig) (conn : Connection)
    (attr : String) (v : Value) (h : Value.isNone v = false) :
    Value.isNone (encodeAttr cfg conn attr v).2 = false := by
  unfold encodeAttr
  by_cases h1 : attr ∈ cfg.unconvertible
  · simpa [h1] using h
  · simp only [h1, if_false]
    cases mapLookup RESOURCE_MAP attr
    · cases mapLookup RESOURCE_SET_MAP attr
      · by_cases h2 : attr == "parent"
        · simp [h2, Value.isNone]
        · simp only [h2, if_false]
          cases v with
          | str s =>
            cases hdt : conn.parseDateTime s
            · cases hd : conn.parseDate s
              · simp [hdt, hd, Value.isNone]
              · simp [hdt, hd, Value.isNone]
            · simp [hdt, Value.isNone]
          | none => simp [Value.isNone] at h
          | int n => simp [Value.isNone]
          | date d => simp [Value.isNone]
          | datetime d => simp [Value.isNone]
          | dict fs => simp [Value.isNone]
          | list l => simp [Value.isNone]
          | resource t p => simp [Value.isNone]
          | resourceSet t p => simp [Value.isNone]
          | collection t f => simp [Value.isNone]
      · simp [Value.isNone]
    · simp [Value.isNone]

/-- `decode` always returns the (type-specifically renamed) attribute name. -/
theorem decodeAttr_name (cfg : TypeConfig) (conn : Connection) (attr : String)
    (v : Value) : (decodeAttr cfg conn attr v).1 = cfg.renameOnDecode attr := by
  unfold decodeAttr
  cases v <;> rfl

/-! ### Structural lemmas about the mutating operations -/

theorem setCustomFields_cfg (s : RState) (a : String) (v : Value) :
    (setCustomFields s a v).state.cfg = s.cfg := by
  unfold setCustomFields
  repeat' split
  all_goals rfl

theorem setPlain_cfg (s : RState) (a : String) (v : Value) :
    (setPlain s a v).state.cfg = s.cfg := by
  unfold setPlain
  dsimp only
  repeat' split
  all_goals rfl

theorem setattr_cfg (s : RState) (a : String) (v : Value) :
    (resourceSetattr s a v).state.cfg = s.cfg := by
  unfold resourceSetattr setattrResolved
  repeat' split
  all_goals first
    | rfl
    | apply setCustomFields_cfg
    | apply setPlain_cfg

theorem save_cfg (s : RState) (io : SaveIO) :
    (resourceSave s io).state.cfg = s.cfg := by
  unfold resourceSave
  repeat' split
  all_goals rfl

theorem refresh_cfg (s : RState) (f : Value → Except Err AttrMap) :
    (refreshItself s f).2.cfg = s.cfg := by
  unfold refreshItself
  repeat' split
  all_goals rfl

theorem save_changes (s : RState) (io : SaveIO) :
    (resourceSave s io).state.changes = s.changes ∨
    (resourceSave s io).state.changes = [] := by
  unfold resourceSave
  repeat' split
  all_goals first
    | exact Or.inl rfl
    | exact Or.inr rfl

theorem refresh_changes (s : RState) (f : Value → Except Err AttrMap) :
    (refreshItself s f).2.changes = s.changes := by
  unfold refreshItself
  repeat' split
  all_goals rfl

theorem setCustomFields_changes (s : RState) (a : String) (v : Value) :
    (setCustomFields s a v).state.changes = s.changes ∨
    ∃ w, (setCustomFields s a v).state.changes =
      AttrMap.set s.changes "custom_fields" w := by
  unfold setCustomFields
  repeat' split
  all_goals first
    | exact Or.inl rfl
    | exact Or.inr ⟨_, rfl⟩

theorem setPlain_changes (s : RState) (a : String) (v : Value) :
    ∃ w, (setPlain s a v).state.changes =
      AttrMap.set s.changes (s.cfg.renameOnDecode a) w := by
  have hname := decodeAttr_name s.cfg s.conn a v
  unfold setPlain
  dsimp only
  repeat' split
  all_goals exact ⟨(decodeAttr s.cfg s.conn a v).2, by rw [← hname]⟩

/-- A name that passed the readonly guard is neither a relation nor an
include name (those sit in both expanded readonly sets, and in each
lifecycle state one of the two guards applies). -/
theorem guard_rejects_relations (s : RState) (a : String)
    (h2 : ¬(a ∈ s.cfg.createReadonly ∧ s.isNew))
    (h3 : ¬(a ∈ s.cfg.updateReadonly ∧ ¬ s.isNew)) :
    a ∉ s.cfg.relations ∧ a ∉ s.cfg.includes := by
  by_contra hc
  push_neg at hc
  have hboth : a ∈ s.cfg.createReadonly ∧ a ∈ s.cfg.updateReadonly := by
    by_cases hr : a ∈ s.cfg.relations
    · exact ⟨by unfold TypeConfig.createReadonly; simp [hr],
             by unfold TypeConfig.updateReadonly; simp [hr]⟩
    · have hi := hc hr
      exact ⟨by unfold TypeConfig.createReadonly; simp [hi],
             by unfold TypeConfig.updateReadonly; simp [hi]⟩
  by_cases hn : s.isNew
  · exact h2 ⟨hboth.1, hn⟩
  · exact h3 ⟨hboth.2, hn⟩

/-- Every path of `__setattr__` either leaves `_changes` alone, or writes one
key that is neither a relation nor an include name of the type — the guard
rejects relation/include names outright, and the decode rename is assumed
(as in every concrete type) not to introduce one. -/
theorem setattr_changes_keys (s : RState) (a : String) (v : Value)
    (hcfg : ∀ b, b ∉ s.cfg.relations → b ∉ s.cfg.includes →
      s.cfg.renameOnDecode b ∉ s.cfg.relations ∧
      s.cfg.renameOnDecode b ∉ s.cfg.includes) :
    (resourceSetattr s a v).state.changes = s.changes ∨
    ∃ k w, (resourceSetattr s a v).state.changes = AttrMap.set s.changes k w ∧
      k ∉ s.cfg.relations ∧ k ∉ s.cfg.includes := by
  unfold resourceSetattr setattrResolved
  by_cases h1 : s.cfg.renameOnSet a ∈ s.cfg.members ∨
      underscored (s.cfg.renameOnSet a)
  · rw [if_pos h1]
    exact Or.inl rfl
  · rw [if_neg h1]
    by_cases h2 : s.cfg.renameOnSet a ∈ s.cfg.createReadonly ∧ s.isNew
    · rw [if_pos h2]
      exact Or.inl rfl
    · rw [if_neg h2]
      by_cases h3 : s.cfg.renameOnSet a ∈ s.cfg.updateReadonly ∧ ¬ s.isNew
      · rw [if_pos h3]
        exact Or.inl rfl
      · rw [if_neg h3]
        have hnotrel := guard_rejects_relations s (s.cfg.renameOnSet a) h2 h3
        by_cases h4 : (s.cfg.renameOnSet a == "custom_fields") = true
        · rw [if_pos h4]
          have hcfs : s.cfg.renameOnSet a = "custom_fields" := eq_of_beq h4
          rcases setCustomFields_changes s (s.cfg.renameOnSet a) v with h | ⟨w, hw⟩
          · exact Or.inl h
          · refine Or.inr ⟨"custom_fields", w, hw, ?_, ?_⟩
            · rw [← hcfs]
              exact hnotrel.1
            · rw [← hcfs]
              exact hnotrel.2
        · rw [if_neg h4]
          obtain ⟨w, hw⟩ := setPlain_changes s (s.cfg.renameOnSet a) v
          exact Or.inr ⟨s.cfg.renameOnDecode (s.cfg.renameOnSet a), w, hw,
            (hcfg _ hnotrel.1 hnotrel.2).1, (hcfg _ hnotrel.1 hnotrel.2).2⟩

theorem finishGet_some (s : RState) (a : String) (v : Value) (enc : AttrMap)
    (evs : List Event) (hv : Value.isNone v = false) :
    finishGet s a v enc evs = ⟨Except.ok v, AttrMap.set enc a v, evs⟩ := by
  unfold finishGet
  rw [if_pos (by rw [hv]; rfl)]

theorem finishGet_none_new (s : RState) (a : String) (enc : AttrMap)
    (evs : List Event) (hnew : s.isNew = true) :
    finishGet s a Value.none enc evs =
      ⟨Except.ok (if a == "id" || a == "version" then Value.int 0
                  else Value.str ""), enc, evs⟩ := by
  unfold finishGet
  rw [if_neg (by simp [Value.isNone]), if_pos hnew]

theorem finishGet_none_old (s : RState) (a : String) (enc : AttrMap)
    (evs : List Event) (hnew : s.isNew = false) :
    finishGet s a Value.none enc evs =
      (match s.conn.raiseAttrException with
       | RaisePolicy.bool true => ⟨Except.error Err.resourceAttrError, enc, evs⟩
       | RaisePolicy.bool false => ⟨Except.ok Value.none, enc, evs⟩
       | RaisePolicy.list names =>
         if s.cfg.name ∈ names then ⟨Except.error Err.resourceAttrError, enc, evs⟩
         else ⟨Except.ok Value.none, enc, evs⟩) := by
  unfold finishGet
  rw [if_neg (by simp [Value.isNone])]
  rw [if_neg (by rw [hnew]; exact Bool.false_ne_true)]

theorem getattr_cache_hit (s : RState) (attr : String)
    (hund : underscored attr = false)
    (h1 : Value.isNone (AttrMap.getv s.encoded attr) = false) :
    resourceGetattr s attr =
      ⟨Except.ok (AttrMap.getv s.encoded attr), s.encoded, []⟩ := by
  have hu : ¬ (underscored attr = true) := by
    rw [hund]
    exact Bool.false_ne_true
  unfold resourceGetattr getattrFuel
  rw [if_neg hu]
  dsimp only
  rw [if_pos (by rw [h1]; rfl)]

theorem getattr_decode (s : RState) (attr : String)
    (hund : underscored attr = false)
    (h1 : Value.isNone (AttrMap.getv s.encoded attr) = true)
    (h2 : Value.isNone (AttrMap.getv s.decoded attr) = false) :
    resourceGetattr s attr =
      ⟨Except.ok (encodeAttr s.cfg s.conn attr (AttrMap.getv s.decoded attr)).2,
       AttrMap.set s.encoded
         (encodeAttr s.cfg s.conn attr (AttrMap.getv s.decoded attr)).1
         (encodeAttr s.cfg s.conn attr (AttrMap.getv s.decoded attr)).2,
       []⟩ := by
  have hu : ¬ (underscored attr = true) := by
    rw [hund]
    exact Bool.false_ne_true
  unfold resourceGetattr getattrFuel
  rw [if_neg hu]
  dsimp only
  rw [if_neg (by rw [h1]; exact Bool.false_ne_true)]
  rw [if_pos (by rw [h2]; rfl)]
  exact finishGet_some _ _ _ _ _
    (encodeAttr_nonnone s.cfg s.conn attr (AttrMap.getv s.decoded attr) h2)

theorem getattr_relation (s : RState) (attr : String) (idv : Value)
    (enc1 : AttrMap) (t : String)
    (hund : underscored attr = false)
    (h1 : Value.isNone (AttrMap.getv s.encoded attr) = true)
    (h2 : Value.isNone (AttrMap.getv s.decoded attr) = true)
    (h3 : attr ∈ s.cfg.relations)
    (hid : getattrFuel 1 s "id" = ⟨Except.ok idv, enc1, []⟩)
    (ht : mapLookup RELATIONS_MAP attr = some t) :
    resourceGetattr s attr =
      ⟨Except.ok (Value.collection t [(s.cfg.relationsName ++ "_id", idv)]),
       AttrMap.set enc1 attr
         (Value.collection t [(s.cfg.relationsName ++ "_id", idv)]),
       [Event.filterFetch t [(s.cfg.relationsName ++ "_id", idv)]]⟩ := by
  have hu : ¬ (underscored attr = true) := by
    rw [hund]
    exact Bool.false_ne_true
  unfold resourceGetattr getattrFuel
  rw [if_neg hu]
  dsimp only
  rw [if_neg (by rw [h1]; exact Bool.false_ne_true)]
  rw [if_neg (by rw [h2]; exact Bool.false_ne_true)]
  rw [if_pos h3, hid]
  dsimp only
  rw [ht]
  dsimp only
  rw [finishGet_some _ _ _ _ _
    (show Value.isNone
      (Value.collection t [(s.cfg.relationsName ++ "_id", idv)]) = false
     from rfl)]
  simp

theorem getattr_include (s : RState) (attr : String) (idv : Value)
    (enc1 : AttrMap) (v : Value)
    (hund : underscored attr = false)
    (h1 : Value.isNone (AttrMap.getv s.encoded attr) = true)
    (h2 : Value.isNone (AttrMap.getv s.decoded attr) = true)
    (h3 : attr ∉ s.cfg.relations)
    (h4 : attr ∈ s.cfg.includes)
    (hid : getattrFuel 1 s "id" = ⟨Except.ok idv, enc1, []⟩)
    (hfetch : s.mgr.fetchInclude idv attr = Except.ok v)
    (hv : Value.isNone v = false) :
    resourceGetattr s attr =
      ⟨Except.ok v, AttrMap.set enc1 attr v,
       [Event.includeFetch idv attr]⟩ := by
  have hu : ¬ (underscored attr = true) := by
    rw [hund]
    exact Bool.false_ne_true
  unfold resourceGetattr getattrFuel
  rw [if_neg hu]
  dsimp only
  rw [if_neg (by rw [h1]; exact Bool.false_ne_true)]
  rw [if_neg (by rw [h2]; exact Bool.false_ne_true)]
  rw [if_neg h3, if_pos h4, hid]
  dsimp only
  rw [hfetch]
  dsimp only
  rw [finishGet_some _ _ _ _ _ hv]
  simp

theorem getattr_default_new (s : RState) (attr : String)
    (hund : underscored attr = false)
    (h1 : Value.isNone (AttrMap.getv s.encoded attr) = true)
    (h2 : Value.isNone (AttrMap.getv s.decoded attr) = true)
    (h3 : attr ∉ s.cfg.relations) (h4 : attr ∉ s.cfg.includes)
    (h5 : s.isNew = true) :
    resourceGetattr s attr =
      ⟨Except.ok (if attr == "id" || attr == "version" then Value.int 0
                  else Value.str ""),
       s.encoded, []⟩ := by
  have hu : ¬ (underscored attr = true) := by
    rw [hund]
    exact Bool.false_ne_true
  unfold resourceGetattr getattrFuel
  rw [if_neg hu]
  dsimp only
  rw [if_neg (by rw [h1]; exact Bool.false_ne_true)]
  rw [if_neg (by rw [h2]; exact Bool.false_ne_true)]
  rw [if_neg h3, if_neg h4]
  exact finishGet_none_new _ _ _ _ h5

theorem getattr_policy (s : RState) (attr : String)
    (hund : underscored attr = false)
    (h1 : Value.isNone (AttrMap.getv s.encoded attr) = true)
    (h2 : Value.isNone (AttrMap.getv s.decoded attr) = true)
    (h3 : attr ∉ s.cfg.relations) (h4 : attr ∉ s.cfg.includes)
    (h5 : s.isNew = false) :
    resourceGetattr s attr =
      (match s.conn.raiseAttrException with
       | RaisePolicy.bool true =>
         ⟨Except.error Err.resourceAttrError, s.encoded, []⟩
       | RaisePolicy.bool false => ⟨Except.ok Value.none, s.encoded, []⟩
       | RaisePolicy.list names =>
         if s.cfg.name ∈ names then
           ⟨Except.error Err.resourceAttrError, s.encoded, []⟩
         else ⟨Except.ok Value.none, s.encoded, []⟩) := by
  have hu : ¬ (underscored attr = true) := by
    rw [hund]
    exact Bool.false_ne_true
  unfold resourceGetattr getattrFuel
  rw [if_neg hu]
  dsimp only
  rw [if_neg (by rw [h1]; exact Bool.false_ne_true)]
  rw [if_neg (by rw [h2]; exact Bool.false_ne_true)]
  rw [if_neg h3, if_neg h4]
  exact finishGet_none_old _ _ _ _ h5

theorem finishGet_congr (s1 s2 : RState) (a : String) (v : Value)
    (enc : AttrMap) (evs : List Event)
    (h1 : s1.isNew = s2.isNew) (h2 : s1.conn = s2.conn)
    (h3 : s1.cfg = s2.cfg) :
    finishGet s1 a v enc evs = finishGet s2 a v enc evs := by
  unfold finishGet
  rw [h1, h2, h3]

/-- `__getattr__` reads `_decoded_attrs` only through `get` (which collapses
a stored `None` and an absent key) and through `is_new`: two states agreeing
on those observations run identically. -/
theorem getattrFuel_decoded_congr :
    ∀ (n : Nat) (s : RState) (d2 : AttrMap) (attr : String),
    (∀ k, AttrMap.getv d2 k = AttrMap.getv s.decoded k) →
    (RState.isNew { s with decoded := d2 } = s.isNew) →
    getattrFuel n { s with decoded := d2 } attr = getattrFuel n s attr
  | 0, _, _, _, _, _ => rfl
  | Nat.succ m, s, d2, attr, hgv, hnew => by
    have hnewenc : ∀ enc : AttrMap,
        RState.isNew { s with decoded := d2, encoded := enc } =
        RState.isNew { s with encoded := enc } := by
      intro enc
      exact hnew
    unfold getattrFuel
    by_cases hund : underscored attr = true
    · rw [if_pos hund, if_pos hund]
    · rw [if_neg hund, if_neg hund]
      dsimp only
      rw [hgv attr]
      by_cases hc : (!(Value.isNone (AttrMap.getv s.encoded attr))) = true
      · rw [if_pos hc, if_pos hc]
      · rw [if_neg hc, if_neg hc]
        by_cases hd : (!(Value.isNone (AttrMap.getv s.decoded attr))) = true
        · rw [if_pos hd, if_pos hd]
          exact finishGet_congr _ _ _ _ _ _ hnew rfl rfl
        · rw [if_neg hd, if_neg hd]
          by_cases hr : attr ∈ s.cfg.relations
          · rw [if_pos hr, if_pos hr]
            rw [getattrFuel_decoded_congr m s d2 "id" hgv hnew]
            cases hres : getattrFuel m s "id" with
            | mk result enc evs =>
              cases result with
              | error e => rfl
              | ok idv =>
                dsimp only
                cases mapLookup RELATIONS_MAP attr with
                | none => rfl
                | some t =>
                  dsimp only
                  exact finishGet_congr _ _ _ _ _ _ (hnewenc enc) rfl rfl
          · rw [if_neg hr, if_neg hr]
            by_cases hi : attr ∈ s.cfg.includes
            · rw [if_pos hi, if_pos hi]
              rw [getattrFuel_decoded_congr m s d2 "id" hgv hnew]
              cases hres : getattrFuel m s "id" with
              | mk result enc evs =>
                cases result with
                | error e => rfl
                | ok idv =>
                  dsimp only
                  cases s.mgr.fetchInclude idv attr with
                  | error e => rfl
                  | ok v =>
                    dsimp only
                    exact finishGet_congr _ _ _ _ _ _ (hnewenc enc) rfl rfl
            · rw [if_neg hi, if_neg hi]
              exact finishGet_congr _ _ _ _ _ _ hnew rfl rfl

theorem Value.isNone_iff (v : Value) :
    Value.isNone v = true ↔ v = Value.none := by
  cases v <;> simp [Value.isNone]

theorem finishGet_encoded_none (s : RState) (a : String) (enc : AttrMap)
    (evs : List Event) :
    (finishGet s a Value.none enc evs).encoded = enc := by
  unfold finishGet
  rw [if_neg (by simp [Value.isNone])]
  by_cases hn : s.isNew = true
  · rw [if_pos hn]
  · rw [if_neg hn]
    cases s.conn.raiseAttrException with
    | bool b => cases b <;> rfl
    | list names =>
      dsimp only
      by_cases hm : s.cfg.name ∈ names
      · rw [if_pos hm]
      · rw [if_neg hm]

theorem find?_foldl_set_absent (attrs : AttrMap) :
    ∀ (m0 : AttrMap) (n : String), AttrMap.mem attrs n = false →
    AttrMap.find?
      (List.foldl (fun m p => AttrMap.set m p.1 p.2) m0 attrs) n =
      AttrMap.find? m0 n := by
  induction attrs with
  | nil =>
    intro m0 n h
    rfl
  | cons p rest ih =>
    intro m0 n h
    have h1 : (p.1 == n) = false := by
      cases hx : p.1 == n
      · rfl
      · exfalso
        simp [AttrMap.mem, hx] at h
    have h2 : AttrMap.mem rest n = false := by
      cases hx : AttrMap.mem rest n
      · rfl
      · exfalso
        simp [AttrMap.mem, hx] at h
    simp only [List.foldl_cons]
    rw [ih _ n h2]
    exact AttrMap.find?_set_other m0 p.1 n p.2
      (Ne.symm (beq_eq_false_iff_ne.mp h1))

theorem find?_fromkeys (ks : List String) :
    ∀ (m0 : AttrMap) (n : String),
    (n ∈ ks ∨ AttrMap.find? m0 n = some Value.none) →
    AttrMap.find?
      (List.foldl (fun m k => AttrMap.set m k Value.none) m0 ks) n =
      some Value.none := by
  induction ks with
  | nil =>
    intro m0 n h
    rcases h with h | h
    · cases h
    · exact h
  | cons k ks ih =>
    intro m0 n h
    simp only [List.foldl_cons]
    apply ih
    by_cases hk : n = k
    · subst hk
      exact Or.inr (AttrMap.find?_set_self m0 n Value.none)
    · rcases h with h | h
      · rcases List.mem_cons.mp h with h | h
        · exact absurd h hk
        · exact Or.inl h
      · right
        rw [AttrMap.find?_set_other m0 k n Value.none hk]
        exact h

/-- Resolving `internal_id` (i.e. `__getattr__('id')`) can only touch the
`id` entry of the cache, provided `id` is not itself a relation or include
name (true of every configuration in the source). -/
theorem getattrFuel1_id_encoded (s : RState)
    (hid1 : "id" ∉ s.cfg.relations) (hid2 : "id" ∉ s.cfg.includes)
    (k : String) (hk : k ≠ "id") :
    AttrMap.getv (getattrFuel 1 s "id").encoded k =
      AttrMap.getv s.encoded k := by
  unfold getattrFuel
  rw [if_neg (show ¬(underscored "id" = true) by decide)]
  dsimp only
  by_cases hc : (!(Value.isNone (AttrMap.getv s.encoded "id"))) = true
  · rw [if_pos hc]
  · rw [if_neg hc]
    by_cases hd : (!(Value.isNone (AttrMap.getv s.decoded "id"))) = true
    · rw [if_pos hd]
      have hdf : Value.isNone (AttrMap.getv s.decoded "id") = false := by
        cases hx : Value.isNone (AttrMap.getv s.decoded "id")
        · rfl
        · rw [hx] at hd
          simp at hd
      rw [finishGet_some _ _ _ _ _
        (encodeAttr_nonnone s.cfg s.conn "id" _ hdf)]
      dsimp only
      rw [encodeAttr_name]
      exact AttrMap.getv_set_other s.encoded "id" k _ hk
    · rw [if_neg hd, if_neg hid1, if_neg hid2]
      rw [finishGet_encoded_none]

/-- When `__getattr__` returns the `None` sentinel, the attribute's cache
entry is still empty afterwards (the only cache write on such a run is the
`id` entry made while resolving `internal_id`). -/
theorem getattr_ok_none_encoded (s : RState) (n : String)
    (hid1 : "id" ∉ s.cfg.relations) (hid2 : "id" ∉ s.cfg.includes)
    (hres : (resourceGetattr s n).result = Except.ok Value.none) :
    AttrMap.getv (resourceGetattr s n).encoded n = Value.none := by
  by_cases hund : underscored n = true
  · have hthis : resourceGetattr s n =
        ⟨Except.error Err.attrError, s.encoded, []⟩ := by
      unfold resourceGetattr getattrFuel
      rw [if_pos hund]
    rw [hthis] at hres
    simp at hres
  · have hundf : underscored n = false := by
      cases hx : underscored n
      · rfl
      · exact absurd hx hund
    by_cases hc : Value.isNone (AttrMap.getv s.encoded n) = false
    · have h := getattr_cache_hit s n hundf hc
      rw [h] at hres
      dsimp only at hres
      have hv : AttrMap.getv s.encoded n = Value.none := by
        injection hres
      rw [hv] at hc
      simp [Value.isNone] at hc
    · have hc2 : Value.isNone (AttrMap.getv s.encoded n) = true := by
        cases hx : Value.isNone (AttrMap.getv s.encoded n)
        · exact absurd hx hc
        · rfl
      by_cases hd : Value.isNone (AttrMap.getv s.decoded n) = false
      · have h := getattr_decode s n hundf hc2 hd
        rw [h] at hres
        dsimp only at hres
        have hv : (encodeAttr s.cfg s.conn n (AttrMap.getv s.decoded n)).2 =
            Value.none := by
          injection hres
        have hnn := encodeAttr_nonnone s.cfg s.conn n
          (AttrMap.getv s.decoded n) hd
        rw [hv] at hnn
        simp [Value.isNone] at hnn
      · have hd2 : Value.isNone (AttrMap.getv s.decoded n) = true := by
          cases hx : Value.isNone (AttrMap.getv s.decoded n)
          · exact absurd hx hd
          · rfl
        have hgnone : AttrMap.getv s.encoded n = Value.none :=
          (Value.isNone_iff _).mp hc2
        unfold resourceGetattr getattrFuel at hres ⊢
        rw [if_neg (by rw [hundf]; exact Bool.false_ne_true)] at hres ⊢
        dsimp only at hres ⊢
        rw [if_neg (by rw [hc2]; exact Bool.false_ne_true)] at hres ⊢
        rw [if_neg (by rw [hd2]; exact Bool.false_ne_true)] at hres ⊢
        by_cases hr : n ∈ s.cfg.relations
        · rw [if_pos hr] at hres
          cases hinner : getattrFuel 1 s "id" with
          | mk result enc evs =>
            rw [hinner] at hres
            cases result with
            | error e =>
              dsimp only at hres
              simp at hres
            | ok idv =>
              dsimp only at hres
              cases hmap : mapLookup RELATIONS_MAP n with
              | none =>
                rw [hmap] at hres
                dsimp only at hres
                simp at hres
              | some t =>
                rw [hmap] at hres
                dsimp only at hres
                rw [finishGet_some _ _ _ _ _
                  (show Value.isNone (Value.collection t
                    [(s.cfg.relationsName ++ "_id", idv)]) = false
                   from rfl)] at hres
                dsimp only at hres
                simp at hres
        · rw [if_neg hr] at hres ⊢
          by_cases hi : n ∈ s.cfg.includes
          · rw [if_pos hi] at hres ⊢
            have hni : n ≠ "id" := fun he => hid2 (he ▸ hi)
            cases hinner : getattrFuel 1 s "id" with
            | mk result enc evs =>
              rw [hinner] at hres
              cases result with
              | error e =>
                dsimp only at hres
                simp at hres
              | ok idv =>
                dsimp only at hres ⊢
                cases hf : s.mgr.fetchInclude idv n with
                | error e =>
                  rw [hf] at hres
                  dsimp only at hres
                  simp at hres
                | ok v =>
                  rw [hf] at hres
                  dsimp only at hres ⊢
                  by_cases hv : Value.isNone v = false
                  · rw [finishGet_some _ _ _ _ _ hv] at hres
                    dsimp only at hres
                    have hveq : v = Value.none := by
                      injection hres
                    rw [hveq] at hv
                    simp [Value.isNone] at hv
                  · have hveq : v = Value.none := by
                      apply (Value.isNone_iff v).mp
                      cases hx : Value.isNone v
                      · exact absurd hx hv
                      · rfl
                    subst hveq
                    rw [finishGet_encoded_none]
                    have hpres := getattrFuel1_id_encoded s hid1 hid2 n hni
                    rw [hinner] at hpres
                    dsimp only at hpres
                    rw [hpres]
                    exact hgnone
          · rw [if_neg hi] at hres ⊢
            rw [finishGet_encoded_none]
            exact hgnone

theorem setCustomFields_shape (s : RState) (a : String) (v : Value) :
    ((setCustomFields s a v).result = Except.ok () ∧
     (setCustomFields s a v).state.encoded = AttrMap.pop s.encoded a) ∨
    (∃ e, (setCustomFields s a v).result = Except.error e ∧
     (setCustomFields s a v).state = s) := by
  unfold setCustomFields
  repeat' split
  all_goals first
    | exact Or.inl ⟨rfl, rfl⟩
    | exact Or.inr ⟨_, rfl, rfl⟩

theorem setPlain_shape (s : RState) (a : String) (v : Value) :
    ((setPlain s a v).result = Except.ok () ∧
     (setPlain s a v).state.encoded = AttrMap.pop s.encoded a) ∨
    ((setPlain s a v).result = Except.error Err.typeError ∧
     (setPlain s a v).state.encoded = s.encoded) := by
  unfold setPlain
  dsimp only
  repeat' split
  all_goals first
    | exact Or.inl ⟨rfl, rfl⟩
    | exact Or.inr ⟨rfl, rfl⟩

/-- A permitted `__setattr__` reduces to the custom-fields branch or the
plain branch, according to the (renamed) written name. -/
theorem setattr_dispatch (s : RState) (a : String) (v : Value)
    (hm : s.cfg.renameOnSet a ∉ s.cfg.members)
    (hu : underscored (s.cfg.renameOnSet a) = false)
    (h2 : ¬(s.cfg.renameOnSet a ∈ s.cfg.createReadonly ∧ s.isNew))
    (h3 : ¬(s.cfg.renameOnSet a ∈ s.cfg.updateReadonly ∧ ¬ s.isNew)) :
    resourceSetattr s a v =
      (if s.cfg.renameOnSet a == "custom_fields" then
        setCustomFields s (s.cfg.renameOnSet a) v
      else setPlain s (s.cfg.renameOnSet a) v) := by
  unfold resourceSetattr setattrResolved
  rw [if_neg (by
    intro hc
    cases hc with
    | inl h1 => exact hm h1
    | inr h1 => rw [hu] at h1; exact Bool.false_ne_true h1)]
  rw [if_neg h2, if_neg h3]

theorem execOp_cfg (s : RState) (op : Op) : (execOp s op).cfg = s.cfg := by
  cases op with
  | setOp a v => exact setattr_cfg s a v
  | saveOp io => exact save_cfg s io
  | refreshOp f => exact refresh_cfg s f

theorem execOp_no_relinc (s : RState) (op : Op)
    (h : noRelIncInChanges s) (hcfg : decodeRenameSafe s.cfg) :
    noRelIncInChanges (execOp s op) := by
  intro a ha
  rw [execOp_cfg] at ha
  cases op with
  | setOp n v =>
    rcases setattr_changes_keys s n v hcfg with he | ⟨k, w, he, hk1, hk2⟩
    · show AttrMap.mem (resourceSetattr s n v).state.changes a = false
      rw [he]
      exact h a ha
    · show AttrMap.mem (resourceSetattr s n v).state.changes a = false
      rw [he, AttrMap.mem_set]
      have hka : (k == a) = false := by
        apply beq_eq_false_iff_ne.mpr
        intro hkeq
        subst hkeq
        cases ha with
        | inl h1 => exact hk1 h1
        | inr h1 => exact hk2 h1
      rw [hka, h a ha]
      rfl
  | saveOp io =>
    show AttrMap.mem (resourceSave s io).state.changes a = false
    rcases save_changes s io with he | he
    · rw [he]
      exact h a ha
    · rw [he]
      rfl
  | refreshOp f =>
    show AttrMap.mem (refreshItself s f).2.changes a = false
    rw [refresh_changes]
    exact h a ha

theorem execOps_no_relinc (ops : List Op) (s : RState)
    (h : noRelIncInChanges s) (hcfg : decodeRenameSafe s.cfg) :
    noRelIncInChanges (execOps s ops) := by
  induction ops generalizing s with
  | nil => exact h
  | cons op rest ih =>
    have hcfg2 : decodeRenameSafe (execOp s op).cfg := by
      rw [execOp_cfg]
      exact hcfg
    exact ih (execOp s op) (execOp_no_relinc s op h hcfg) hcfg2

/-! ### Custom-fields merge lemmas -/

theorem PyDict.find?_map_fields (cfg : TypeConfig) (conn : Connection)
    (fields : List Value) (k : Value) :
    PyDict.find?
      (List.map (fun f => (fieldIdOf f, decodedField cfg conn f)) fields) k =
    Option.map (decodedField cfg conn)
      (List.find? (fun f => Value.beq (fieldIdOf f) k) fields) := by
  induction fields with
  | nil => rfl
  | cons f rest ih =>
    cases hf : Value.beq (fieldIdOf f) k
    · simp [PyDict.find?, List.find?, hf, ih]
    · simp [PyDict.find?, List.find?, hf]

theorem PyDict.pop_map_fields (cfg : TypeConfig) (conn : Connection)
    (fields : List Value) (k : Value) :
    PyDict.pop
      (List.map (fun f => (fieldIdOf f, decodedField cfg conn f)) fields) k =
    List.map (fun f => (fieldIdOf f, decodedField cfg conn f))
      (List.filter (fun f => !(Value.beq (fieldIdOf f) k)) fields) := by
  induction fields with
  | nil => rfl
  | cons f rest ih =>
    cases hf : Value.beq (fieldIdOf f) k
    · simp [PyDict.pop, List.filter_cons, hf, ih]
    · simp [PyDict.pop, List.filter_cons, hf, ih]

theorem PyDict.values_map_fields (cfg : TypeConfig) (conn : Connection)
    (fields : List Value) :
    PyDict.values
      (List.map (fun f => (fieldIdOf f, decodedField cfg conn f)) fields) =
    List.map (decodedField cfg conn) fields := by
  unfold PyDict.values
  rw [List.map_map]
  rfl

theorem PyDict.set_append (m : PyDict) (k v : Value)
    (h : List.any m (fun p => Value.beq p.1 k) = false) :
    PyDict.set m k v = m ++ [(k, v)] := by
  induction m with
  | nil => rfl
  | cons p rest ih =>
    have h1 : Value.beq p.1 k = false := by
      cases hx : Value.beq p.1 k
      · rfl
      · exfalso
        simp [hx] at h
    have h2 : List.any rest (fun p => Value.beq p.1 k) = false := by
      cases hx : List.any rest (fun p => Value.beq p.1 k)
      · rfl
      · exfalso
        simp [hx] at h
    simp only [PyDict.set, h1]
    rw [if_neg Bool.false_ne_true, ih h2]
    rfl

theorem find?_filter_keep {α : Type} (l : List α) (p q : α → Bool)
    (h : ∀ x ∈ l, p x = true → q x = true) :
    List.find? p (List.filter q l) = List.find? p l := by
  induction l with
  | nil => rfl
  | cons a l ih =>
    have ihl := ih (fun x hx => h x (List.mem_cons_of_mem a hx))
    by_cases hq : q a = true
    · cases hp : p a
      · simp [List.filter_cons, List.find?, hq, hp, ihl]
      · simp [List.filter_cons, List.find?, hq, hp]
    · have hp : p a = false := by
        cases hx : p a
        · rfl
        · exact absurd (h a (List.mem_cons_self a l) hx) hq
      have hq2 : q a = false := by
        cases hx : q a
        · rfl
        · exact absurd hx hq
      simp [List.filter_cons, List.find?, hq2, hp, ihl]

theorem goodField_shape (f : Value) (h : goodField f = true) :
    ∃ fs, f = Value.dict fs ∧ AttrMap.mem fs "id" = true := by
  cases f with
  | dict fs => exact ⟨fs, rfl, h⟩
  | none => simp [goodField] at h
  | str s => simp [goodField] at h
  | int n => simp [goodField] at h
  | date d => simp [goodField] at h
  | datetime d => simp [goodField] at h
  | list l => simp [goodField] at h
  | resource t p => simp [goodField] at h
  | resourceSet t p => simp [goodField] at h
  | collection t f => simp [goodField] at h

theorem beq_ids_false (a b : Value) (ka kb : Int)
    (ha : fieldIdOf a = Value.int ka) (hb : fieldIdOf b = Value.int kb)
    (hne : fieldIdOf a ≠ fieldIdOf b) :
    Value.beq (fieldIdOf a) (fieldIdOf b) = false := by
  rw [ha, hb]
  show (ka == kb) = false
  apply beq_eq_false_iff_ne.mpr
  intro he
  rw [ha, hb, he] at hne
  exact hne rfl

theorem beq_ids_true_eq (a b : Value) (ka kb : Int)
    (ha : fieldIdOf a = Value.int ka) (hb : fieldIdOf b = Value.int kb)
    (htrue : Value.beq (fieldIdOf a) (fieldIdOf b) = true) :
    fieldIdOf a = fieldIdOf b := by
  rw [ha, hb] at htrue ⊢
  have : ka = kb := by
    have h2 : (ka == kb) = true := htrue
    exact eq_of_beq h2
  rw [this]

/-- The `new` dict built from well-formed, id-distinct incoming fields is
the incoming list itself, keyed by raw id and valued by the bulk-decoded
field. -/
theorem cfFold_map (cfg : TypeConfig) (conn : Connection) :
    ∀ (fields : List Value) (acc : PyDict),
    (∀ f ∈ fields, goodField f = true) →
    (∀ f ∈ fields,
      List.any acc (fun p => Value.beq p.1 (fieldIdOf f)) = false) →
    List.Pairwise
      (fun f g => Value.beq (fieldIdOf f) (fieldIdOf g) = false) fields →
    List.foldlM (cfNewStep cfg conn) acc fields =
      Except.ok (acc ++
        List.map (fun f => (fieldIdOf f, decodedField cfg conn f)) fields)
  | [], acc, _, _, _ => by
    rw [List.foldlM_nil]
    show Except.ok acc = _
    simp
  | f :: rest, acc, hgood, hacc, hdist => by
    obtain ⟨fs, hgfs, hmem⟩ :=
      goodField_shape f (hgood f (List.mem_cons_self f rest))
    obtain ⟨hdhead, hdtail⟩ := List.pairwise_cons.mp hdist
    subst hgfs
    have hstep : cfNewStep cfg conn acc (Value.dict fs) =
        Except.ok (acc ++ [(fieldIdOf (Value.dict fs),
          decodedField cfg conn (Value.dict fs))]) := by
      unfold cfNewStep
      dsimp only
      rw [if_pos hmem]
      rw [PyDict.set_append acc (AttrMap.getv fs "id")
        (Value.dict (bulkDecode cfg conn fs))
        (hacc (Value.dict fs) (List.mem_cons_self _ rest))]
      rfl
    have hrec := cfFold_map cfg conn rest
      (acc ++ [(fieldIdOf (Value.dict fs),
        decodedField cfg conn (Value.dict fs))])
      (fun g hg => hgood g (List.mem_cons_of_mem _ hg))
      (fun g hg => by
        rw [List.any_append]
        rw [hacc g (List.mem_cons_of_mem _ hg)]
        simp [hdhead g hg])
      hdtail
    rw [List.foldlM_cons, hstep]
    show List.foldlM (cfNewStep cfg conn)
      (acc ++ [(fieldIdOf (Value.dict fs),
        decodedField cfg conn (Value.dict fs))]) rest = _
    rw [hrec]
    simp

/-- The in-place replacement loop on well-formed, id-distinct stored fields
against a `new` dict in list form: every stored field whose id matches an
incoming one is replaced in place by the incoming decoded form, and the
unconsumed incoming fields are exactly those matching no stored id. -/
theorem cfReplace_map_spec (cfg : TypeConfig) (conn : Connection) :
    ∀ (ex fields : List Value),
    (∀ g ∈ ex, goodField g = true) →
    (∀ g ∈ ex, ∃ k : Int, fieldIdOf g = Value.int k) →
    (∀ f ∈ fields, ∃ k : Int, fieldIdOf f = Value.int k) →
    List.Pairwise (fun a b => fieldIdOf a ≠ fieldIdOf b) ex →
    cfReplace ex
      (List.map (fun f => (fieldIdOf f, decodedField cfg conn f)) fields) =
      Except.ok
        (List.map (fun g =>
          match List.find?
            (fun f => Value.beq (fieldIdOf f) (fieldIdOf g)) fields with
          | some f => decodedField cfg conn f
          | Option.none => g) ex,
         List.map (fun f => (fieldIdOf f, decodedField cfg conn f))
           (List.filter (fun f =>
             !(List.any ex
               (fun g => Value.beq (fieldIdOf f) (fieldIdOf g)))) fields))
  | [], fields, _, _, _, _ => by
    show Except.ok _ = _
    simp [cfReplace]
  | g :: rest, fields, hgood, hexint, hfint, hdist => by
    obtain ⟨fs, hgfs, hmem⟩ :=
      goodField_shape g (hgood g (List.mem_cons_self g rest))
    obtain ⟨hdhead, hdtail⟩ := List.pairwise_cons.mp hdist
    subst hgfs
    obtain ⟨kg, hkg⟩ := hexint (Value.dict fs) (List.mem_cons_self _ rest)
    have hfid : fieldIdOf (Value.dict fs) = AttrMap.getv fs "id" := rfl
    unfold cfReplace
    dsimp only
    rw [if_pos hmem, ← hfid]
    rw [PyDict.find?_map_fields cfg conn fields (fieldIdOf (Value.dict fs))]
    cases hfind : List.find?
        (fun f => Value.beq (fieldIdOf f) (fieldIdOf (Value.dict fs)))
        fields with
    | none =>
      dsimp only [Option.map]
      have ihres := cfReplace_map_spec cfg conn rest fields
        (fun g2 hg2 => hgood g2 (List.mem_cons_of_mem _ hg2))
        (fun g2 hg2 => hexint g2 (List.mem_cons_of_mem _ hg2))
        hfint hdtail
      rw [ihres]
      dsimp only
      have hnomatch := List.find?_eq_none.mp hfind
      have hfiltereq : List.filter
          (fun f => !(List.any rest
            (fun g2 => Value.beq (fieldIdOf f) (fieldIdOf g2)))) fields =
          List.filter
          (fun f => !(List.any (Value.dict fs :: rest)
            (fun g2 => Value.beq (fieldIdOf f) (fieldIdOf g2)))) fields := by
        apply List.filter_congr
        intro f hf
        have hb : Value.beq (fieldIdOf f) (fieldIdOf (Value.dict fs)) =
            false := by
          cases hx : Value.beq (fieldIdOf f) (fieldIdOf (Value.dict fs))
          · rfl
          · exact absurd hx (hnomatch f hf)
        simp [List.any_cons, hb]
      rw [hfiltereq]
      simp only [List.map_cons, hfind]
    | some f0 =>
      dsimp only [Option.map]
      rw [PyDict.pop_map_fields]
      have hstay : ∀ g2 ∈ rest, ∀ f ∈ fields,
          Value.beq (fieldIdOf f) (fieldIdOf g2) = true →
          (!(Value.beq (fieldIdOf f) (fieldIdOf (Value.dict fs)))) = true := by
        intro g2 hg2 f hf htrue
        obtain ⟨kf, hkf⟩ := hfint f hf
        obtain ⟨k2, hk2⟩ := hexint g2 (List.mem_cons_of_mem _ hg2)
        have heq := beq_ids_true_eq f g2 kf k2 hkf hk2 htrue
        have hne : fieldIdOf f ≠ fieldIdOf (Value.dict fs) := by
          rw [heq]
          intro hcon
          exact hdhead g2 hg2 hcon.symm
        rw [beq_ids_false f (Value.dict fs) kf kg hkf hkg hne]
        rfl
      have ihres := cfReplace_map_spec cfg conn rest
        (List.filter
          (fun f => !(Value.beq (fieldIdOf f) (fieldIdOf (Value.dict fs))))
          fields)
        (fun g2 hg2 => hgood g2 (List.mem_cons_of_mem _ hg2))
        (fun g2 hg2 => hexint g2 (List.mem_cons_of_mem _ hg2))
        (fun f hf => hfint f (List.mem_filter.mp hf).1)
        hdtail
      rw [ihres]
      dsimp only
      have hmapeq : List.map (fun g2 =>
          match List.find?
            (fun f => Value.beq (fieldIdOf f) (fieldIdOf g2))
            (List.filter
              (fun f =>
                !(Value.beq (fieldIdOf f) (fieldIdOf (Value.dict fs))))
              fields) with
          | some f => decodedField cfg conn f
          | Option.none => g2) rest =
          List.map (fun g2 =>
          match List.find?
            (fun f => Value.beq (fieldIdOf f) (fieldIdOf g2)) fields with
          | some f => decodedField cfg conn f
          | Option.none => g2) rest := by
        apply List.map_congr_left
        intro g2 hg2
        rw [find?_filter_keep fields _ _ (fun f hf ht => hstay g2 hg2 f hf ht)]
      have hfiltereq : List.filter
          (fun f => !(List.any rest
            (fun g2 => Value.beq (fieldIdOf f) (fieldIdOf g2))))
          (List.filter
            (fun f => !(Value.beq (fieldIdOf f) (fieldIdOf (Value.dict fs))))
            fields) =
          List.filter
          (fun f => !(List.any (Value.dict fs :: rest)
            (fun g2 => Value.beq (fieldIdOf f) (fieldIdOf g2)))) fields := by
        rw [List.filter_filter]
        apply List.filter_congr
        intro f hf
        simp [List.any_cons, Bool.not_or, Bool.and_comm]
      rw [hmapeq, hfiltereq]
      simp only [List.map_cons, hfind]

/-- A successful `new`-dict construction certifies every incoming field as a
mapping with an `id` key. -/
theorem cfFold_ok_good (cfg : TypeConfig) (conn : Connection) :
    ∀ (fields : List Value) (acc d : PyDict),
    List.foldlM (cfNewStep cfg conn) acc fields = Except.ok d →
    ∀ f ∈ fields, goodField f = true
  | [], _, _, _, f, hf => absurd hf (List.not_mem_nil f)
  | f0 :: rest, acc, d, hok, f, hf => by
    rw [List.foldlM_cons] at hok
    cases hstep : cfNewStep cfg conn acc f0 with
    | error e =>
      rw [hstep] at hok
      exact Except.noConfusion hok
    | ok acc2 =>
      rw [hstep] at hok
      have hok2 : List.foldlM (cfNewStep cfg conn) acc2 rest =
          Except.ok d := hok
      rcases List.mem_cons.mp hf with hfe | hfr
      · subst hfe
        cases f with
        | dict fs =>
          by_cases hm : AttrMap.mem fs "id" = true
          · exact hm
          · simp [cfNewStep, hm] at hstep
        | none => simp [cfNewStep] at hstep
        | str a => simp [cfNewStep] at hstep
        | int a => simp [cfNewStep] at hstep
        | date a => simp [cfNewStep] at hstep
        | datetime a => simp [cfNewStep] at hstep
        | list a => simp [cfNewStep] at hstep
        | resource a b => simp [cfNewStep] at hstep
        | resourceSet a b => simp [cfNewStep] at hstep
        | collection a b => simp [cfNewStep] at hstep
      · exact cfFold_ok_good cfg conn rest acc2 d hok2 f hfr

/-! ### Claim theorems -/

/-- C3: a name in the readonly set applicable to the current lifecycle state
(the create-readonly set while new, the update-readonly set while persisted,
both expanded at construction by every relation and include name) is
rejected by `set` with `ReadonlyAttrError` for every value, the three maps
untouched; relation and include names sit in both expanded readonly sets;
and consequently after any sequence of public operations from construction,
no relation or include name appears in `_changes`. -/
theorem C3_readonly_guard :
    (∀ (s : RState) (attr : String) (v : Value),
      s.cfg.renameOnSet attr = attr →
      attr ∉ s.cfg.members → ¬ underscored attr →
      ((s.isNew ∧ attr ∈ s.cfg.createReadonly) ∨
       (¬ s.isNew ∧ attr ∈ s.cfg.updateReadonly)) →
      resourceSetattr s attr v = ⟨Except.error Err.readonlyAttrError, s⟩) ∧
    (∀ (cfg : TypeConfig) (a : String),
      a ∈ cfg.relations ∨ a ∈ cfg.includes →
      a ∈ cfg.createReadonly ∧ a ∈ cfg.updateReadonly) ∧
    (∀ (cfg : TypeConfig) (conn : Connection) (mgr : Manager)
       (attrs : AttrMap) (ops : List Op),
      decodeRenameSafe cfg →
      noRelIncInChanges (execOps (RState.init cfg conn mgr attrs) ops)) := by
  refine ⟨?_, ?_, ?_⟩
  · intro s attr v hrn hm hu hro
    unfold resourceSetattr setattrResolved
    rw [hrn]
    rw [if_neg (by
      intro hc
      cases hc with
      | inl h1 => exact hm h1
      | inr h1 => exact hu h1)]
    rcases hro with ⟨hnew, hmem⟩ | ⟨hnotnew, hmem⟩
    · rw [if_pos ⟨hmem, hnew⟩]
    · rw [if_neg (fun hc => hnotnew hc.2)]
      rw [if_pos ⟨hmem, hnotnew⟩]
  · intro cfg a ha
    cases ha with
    | inl h1 =>
      exact ⟨by unfold TypeConfig.createReadonly; simp [h1],
             by unfold TypeConfig.updateReadonly; simp [h1]⟩
    | inr h1 =>
      exact ⟨by unfold TypeConfig.createReadonly; simp [h1],
             by unfold TypeConfig.updateReadonly; simp [h1]⟩
  · intro cfg conn mgr attrs ops hcfg
    apply execOps_no_relinc
    · intro a ha
      rfl
    · exact hcfg

/-- C1: for a name not starting with an underscore, `get` resolves in exactly
this order: (1) a non-`None` cached `encoded` entry is returned as is;
(2) else a non-`None` `decoded` entry is encoded through the codec, cached
under the name the codec returns, and returned; (3) else a relation name
returns and caches a filtered collection keyed by the instance's identity
under `{relations_name}_id`; (4) else an include name obtains the value via
the include-restricted refresh, caches and returns it (when the fetch yields
a value); (5) else a new instance returns the zero default — `0` for `id` or
`version`, `''` otherwise; (6) else `ResourceAttrError` is raised exactly
when the policy is the boolean `True` or a list containing the type's name,
and the `None` sentinel is returned otherwise. -/
theorem C1_getattr_resolution_order (s : RState) (attr : String)
    (hund : underscored attr = false) :
    ((Value.isNone (AttrMap.getv s.encoded attr) = false) →
      resourceGetattr s attr =
        ⟨Except.ok (AttrMap.getv s.encoded attr), s.encoded, []⟩) ∧
    (Value.isNone (AttrMap.getv s.encoded attr) = true →
     Value.isNone (AttrMap.getv s.decoded attr) = false →
      resourceGetattr s attr =
        ⟨Except.ok (encodeAttr s.cfg s.conn attr (AttrMap.getv s.decoded attr)).2,
         AttrMap.set s.encoded
           (encodeAttr s.cfg s.conn attr (AttrMap.getv s.decoded attr)).1
           (encodeAttr s.cfg s.conn attr (AttrMap.getv s.decoded attr)).2,
         []⟩) ∧
    (∀ idv enc1 t,
      Value.isNone (AttrMap.getv s.encoded attr) = true →
      Value.isNone (AttrMap.getv s.decoded attr) = true →
      attr ∈ s.cfg.relations →
      getattrFuel 1 s "id" = ⟨Except.ok idv, enc1, []⟩ →
      mapLookup RELATIONS_MAP attr = some t →
      resourceGetattr s attr =
        ⟨Except.ok (Value.collection t [(s.cfg.relationsName ++ "_id", idv)]),
         AttrMap.set enc1 attr
           (Value.collection t [(s.cfg.relationsName ++ "_id", idv)]),
         [Event.filterFetch t [(s.cfg.relationsName ++ "_id", idv)]]⟩) ∧
    (∀ idv enc1 v,
      Value.isNone (AttrMap.getv s.encoded attr) = true →
      Value.isNone (AttrMap.getv s.decoded attr) = true →
      attr ∉ s.cfg.relations →
      attr ∈ s.cfg.includes →
      getattrFuel 1 s "id" = ⟨Except.ok idv, enc1, []⟩ →
      s.mgr.fetchInclude idv attr = Except.ok v →
      Value.isNone v = false →
      resourceGetattr s attr =
        ⟨Except.ok v, AttrMap.set enc1 attr v,
         [Event.includeFetch idv attr]⟩) ∧
    (Value.isNone (AttrMap.getv s.encoded attr) = true →
     Value.isNone (AttrMap.getv s.decoded attr) = true →
     attr ∉ s.cfg.relations → attr ∉ s.cfg.includes →
     s.isNew = true →
      resourceGetattr s attr =
        ⟨Except.ok (if attr == "id" || attr == "version" then Value.int 0
                    else Value.str ""),
         s.encoded, []⟩) ∧
    (Value.isNone (AttrMap.getv s.encoded attr) = true →
     Value.isNone (AttrMap.getv s.decoded attr) = true →
     attr ∉ s.cfg.relations → attr ∉ s.cfg.includes →
     s.isNew = false →
      (s.conn.raiseAttrException = RaisePolicy.bool true →
        resourceGetattr s attr =
          ⟨Except.error Err.resourceAttrError, s.encoded, []⟩) ∧
      (s.conn.raiseAttrException = RaisePolicy.bool false →
        resourceGetattr s attr = ⟨Except.ok Value.none, s.encoded, []⟩) ∧
      (∀ names, s.conn.raiseAttrException = RaisePolicy.list names →
        (s.cfg.name ∈ names →
          resourceGetattr s attr =
            ⟨Except.error Err.resourceAttrError, s.encoded, []⟩) ∧
        (s.cfg.name ∉ names →
          resourceGetattr s attr =
            ⟨Except.ok Value.none, s.encoded, []⟩))) := by
  refine ⟨?_, ?_, ?_, ?_, ?_, ?_⟩
  · intro h1
    exact getattr_cache_hit s attr hund h1
  · intro h1 h2
    exact getattr_decode s attr hund h1 h2
  · intro idv enc1 t h1 h2 h3 hid ht
    exact getattr_relation s attr idv enc1 t hund h1 h2 h3 hid ht
  · intro idv enc1 v h1 h2 h3 h4 hid hfetch hv
    exact getattr_include s attr idv enc1 v hund h1 h2 h3 h4 hid hfetch hv
  · intro h1 h2 h3 h4 h5
    exact getattr_default_new s attr hund h1 h2 h3 h4 h5
  · intro h1 h2 h3 h4 h5
    have hbase := getattr_policy s attr hund h1 h2 h3 h4 h5
    refine ⟨?_, ?_, ?_⟩
    · intro hpol
      rw [hbase, hpol]
    · intro hpol
      rw [hbase, hpol]
    · intro names hpol
      constructor
      · intro hin
        rw [hbase, hpol]
        dsimp only
        rw [if_pos hin]
      · intro hnin
        rw [hbase, hpol]
        dsimp only
        rw [if_neg hnin]

/-- Witness for C1: a new instance with nothing decoded returns the empty
string for `subject` and `0` for `id` (case 5 of the resolution order). -/
theorem C1_getattr_resolution_order_witness :
    resourceGetattr
      { cfg := baseConfig "Foo", conn := testConn (RaisePolicy.bool true),
        mgr := noFetchMgr, decoded := [], encoded := [], changes := [] }
      "subject" =
    ⟨Except.ok (Value.str ""), [], []⟩ := by
  have h := (C1_getattr_resolution_order
    { cfg := baseConfig "Foo", conn := testConn (RaisePolicy.bool true),
      mgr := noFetchMgr, decoded := [], encoded := [], changes := [] }
    "subject" (by decide)).2.2.2.2.1 rfl rfl (by decide) (by decide) rfl
  simpa using h

/-- C8: relation fetch is idempotent under caching: the first `get` of a
relation attribute performs exactly one filtered fetch through the manager
and caches the collection; a second `get` on the resulting state returns the
cached value with no manager call at all. -/
theorem C8_relation_fetch_idempotent (s : RState) (attr : String)
    (idv : Value) (enc1 : AttrMap) (t : String)
    (hund : underscored attr = false)
    (h1 : Value.isNone (AttrMap.getv s.encoded attr) = true)
    (h2 : Value.isNone (AttrMap.getv s.decoded attr) = true)
    (h3 : attr ∈ s.cfg.relations)
    (hid : getattrFuel 1 s "id" = ⟨Except.ok idv, enc1, []⟩)
    (ht : mapLookup RELATIONS_MAP attr = some t) :
    ∃ v, resourceGetattr s attr =
        ⟨Except.ok v, AttrMap.set enc1 attr v,
         [Event.filterFetch t [(s.cfg.relationsName ++ "_id", idv)]]⟩ ∧
      resourceGetattr
        { s with encoded := (resourceGetattr s attr).encoded } attr =
        ⟨Except.ok v, (resourceGetattr s attr).encoded, []⟩ := by
  have hfirst := getattr_relation s attr idv enc1 t hund h1 h2 h3 hid ht
  refine ⟨Value.collection t [(s.cfg.relationsName ++ "_id", idv)],
    hfirst, ?_⟩
  have henc : (resourceGetattr s attr).encoded =
      AttrMap.set enc1 attr
        (Value.collection t [(s.cfg.relationsName ++ "_id", idv)]) := by
    rw [hfirst]
  have hnn : Value.isNone
      (AttrMap.getv
        ({ s with encoded := (resourceGetattr s attr).encoded }).encoded
        attr) = false := by
    show Value.isNone
      (AttrMap.getv (resourceGetattr s attr).encoded attr) = false
    rw [henc, AttrMap.getv_set_self]
    rfl
  have hsecond := getattr_cache_hit
    { s with encoded := (resourceGetattr s attr).encoded } attr hund hnn
  rw [hsecond]
  show (⟨Except.ok (AttrMap.getv (resourceGetattr s attr).encoded attr),
         (resourceGetattr s attr).encoded, []⟩ : GetResult) = _
  rw [henc, AttrMap.getv_set_self]

/-- Witness for C8: on a persisted `Project` with id 7, the first
`get('issues')` emits one filtered fetch keyed `project_id = 7`; the second
emits none. -/
theorem C8_relation_fetch_idempotent_witness :
    (resourceGetattr
      { cfg := projectConfig, conn := testConn (RaisePolicy.bool false),
        mgr := noFetchMgr, decoded := [("id", Value.int 7)], encoded := [],
        changes := [] } "issues").events =
      [Event.filterFetch "Issue" [("project_id", Value.int 7)]] ∧
    (resourceGetattr
      { cfg := projectConfig, conn := testConn (RaisePolicy.bool false),
        mgr := noFetchMgr, decoded := [("id", Value.int 7)],
        encoded :=
          (resourceGetattr
            { cfg := projectConfig, conn := testConn (RaisePolicy.bool false),
              mgr := noFetchMgr, decoded := [("id", Value.int 7)],
              encoded := [], changes := [] } "issues").encoded,
        changes := [] } "issues").events = [] := by
  obtain ⟨v, hfirst, hsecond⟩ := C8_relation_fetch_idempotent
    { cfg := projectConfig, conn := testConn (RaisePolicy.bool false),
      mgr := noFetchMgr, decoded := [("id", Value.int 7)], encoded := [],
      changes := [] } "issues" (Value.int 7) [("id", Value.int 7)] "Issue"
    (by decide) rfl rfl (by decide) rfl rfl
  constructor
  · rw [hfirst]
    rfl
  · rw [hsecond]

/-- C10: a decoded entry holding `None` — the placeholders pre-seeded at
construction for every relation and include name, and any null wire value —
is treated by `get` exactly like an absent attribute (it skips the
decode/encode path and the whole run is identical to the run on the state
with the entry removed), and a resolution result of `None` is never stored
in the cache, so the attribute's cache entry is still empty after such an
access and it is re-resolved next time. -/
theorem C10_none_like_absent :
    (∀ (cfg : TypeConfig) (conn : Connection) (mgr : Manager)
       (attrs : AttrMap) (n : String),
      (n ∈ cfg.relations ∨ n ∈ cfg.includes) →
      AttrMap.mem attrs n = false →
      AttrMap.find? (RState.init cfg conn mgr attrs).decoded n =
        some Value.none) ∧
    (∀ (s : RState) (n : String),
      n ≠ "id" → n ≠ "created_on" →
      AttrMap.find? s.decoded n = some Value.none →
      resourceGetattr s n =
        resourceGetattr { s with decoded := AttrMap.pop s.decoded n } n) ∧
    (∀ (s : RState) (n : String),
      "id" ∉ s.cfg.relations → "id" ∉ s.cfg.includes →
      (resourceGetattr s n).result = Except.ok Value.none →
      AttrMap.getv (resourceGetattr s n).encoded n = Value.none) := by
  refine ⟨?_, ?_, ?_⟩
  · intro cfg conn mgr attrs n hrel hmem
    show AttrMap.find?
      (AttrMap.fromKeysThen (cfg.relations ++ cfg.includes) attrs) n =
      some Value.none
    unfold AttrMap.fromKeysThen
    rw [find?_foldl_set_absent attrs _ n hmem]
    apply find?_fromkeys
    left
    rcases hrel with h | h
    · exact List.mem_append.mpr (Or.inl h)
    · exact List.mem_append.mpr (Or.inr h)
  · intro s n hn1 hn2 hfind
    have hgv : ∀ k, AttrMap.getv s.decoded k =
        AttrMap.getv (AttrMap.pop s.decoded n) k := by
      intro k
      by_cases hk : k = n
      · subst hk
        unfold AttrMap.getv
        rw [hfind, AttrMap.find?_pop_self]
        rfl
      · unfold AttrMap.getv
        rw [AttrMap.find?_pop_other s.decoded n k hk]
    have hnew : RState.isNew
        { ({ s with decoded := AttrMap.pop s.decoded n }) with
          decoded := s.decoded } =
        RState.isNew { s with decoded := AttrMap.pop s.decoded n } := by
      show RState.isNew { s with decoded := s.decoded } = _
      unfold RState.isNew
      dsimp only
      rw [AttrMap.mem_pop_other s.decoded n "id" (fun he => hn1 he.symm)]
      rw [AttrMap.mem_pop_other s.decoded n "created_on"
        (fun he => hn2 he.symm)]
    exact getattrFuel_decoded_congr 2
      { s with decoded := AttrMap.pop s.decoded n } s.decoded n hgv hnew
  · intro s n hi1 hi2 hres
    exact getattr_ok_none_encoded s n hi1 hi2 hres

/-- C6: `save()` on a persisted instance submits exactly the current changes
to the manager's update keyed by the instance's identity, stamps the
client-side current time into `decoded['updated_on']`, clears changes and
returns `True`, with the pre/post hooks around the manager call; on a new
instance it submits changes to create, replaces `decoded` wholesale with the
response payload, clears changes and returns `True`; a raising manager call
propagates with changes intact and unflushed (and decoded unchanged), so the
save can be retried. -/
theorem C6_save_lifecycle (s : RState) (io : SaveIO) :
    (∀ idv enc1 evs,
      s.isNew = false →
      resourceGetattr s "id" = ⟨Except.ok idv, enc1, evs⟩ →
      io.update idv s.changes = Except.ok () →
      resourceSave s io =
        ⟨Except.ok true,
         { s with encoded := enc1,
                  decoded := AttrMap.set s.decoded "updated_on"
                    (Value.str io.now),
                  changes := [] },
         [SEvent.preUpdate, SEvent.updateCall idv s.changes,
          SEvent.postUpdate]⟩) ∧
    (∀ raw,
      s.isNew = true →
      io.create s.changes = Except.ok raw →
      resourceSave s io =
        ⟨Except.ok true, { s with decoded := raw, changes := [] },
         [SEvent.preCreate, SEvent.createCall s.changes,
          SEvent.postCreate]⟩) ∧
    (∀ idv enc1 evs e,
      s.isNew = false →
      resourceGetattr s "id" = ⟨Except.ok idv, enc1, evs⟩ →
      io.update idv s.changes = Except.error e →
      resourceSave s io =
        ⟨Except.error e, { s with encoded := enc1 },
         [SEvent.preUpdate, SEvent.updateCall idv s.changes]⟩) ∧
    (∀ e,
      s.isNew = true →
      io.create s.changes = Except.error e →
      resourceSave s io =
        ⟨Except.error e, s,
         [SEvent.preCreate, SEvent.createCall s.changes]⟩) := by
  refine ⟨?_, ?_, ?_, ?_⟩
  · intro idv enc1 evs hnew hid hupd
    unfold resourceSave
    rw [if_pos (show ¬(s.isNew = true) by rw [hnew]; exact Bool.false_ne_true)]
    rw [hid]
    dsimp only
    rw [hupd]
  · intro raw hnew hcre
    unfold resourceSave
    rw [if_neg (show ¬¬(s.isNew = true) by rw [hnew]; exact not_not_intro rfl)]
    rw [hcre]
  · intro idv enc1 evs e hnew hid hupd
    unfold resourceSave
    rw [if_pos (show ¬(s.isNew = true) by rw [hnew]; exact Bool.false_ne_true)]
    rw [hid]
    dsimp only
    rw [hupd]
  · intro e hnew hcre
    unfold resourceSave
    rw [if_neg (show ¬¬(s.isNew = true) by rw [hnew]; exact not_not_intro rfl)]
    rw [hcre]

/-- Witness for C6: a failing update on a persisted instance leaves `changes`
intact (only the `id` cache entry from identity resolution is added). -/
theorem C6_save_lifecycle_witness :
    resourceSave
      { cfg := baseConfig "Issue", conn := testConn (RaisePolicy.bool false),
        mgr := noFetchMgr, decoded := [("id", Value.int 3)], encoded := [],
        changes := [("subject", Value.str "hi")] }
      ⟨fun _ _ => Except.error Err.managerError,
       fun _ => Except.ok [], "2024-02-03T04:05:06Z"⟩ =
    ⟨Except.error Err.managerError,
     { cfg := baseConfig "Issue", conn := testConn (RaisePolicy.bool false),
       mgr := noFetchMgr, decoded := [("id", Value.int 3)],
       encoded := [("id", Value.int 3)],
       changes := [("subject", Value.str "hi")] },
     [SEvent.preUpdate,
      SEvent.updateCall (Value.int 3) [("subject", Value.str "hi")]]⟩ :=
  (C6_save_lifecycle
    { cfg := baseConfig "Issue", conn := testConn (RaisePolicy.bool false),
      mgr := noFetchMgr, decoded := [("id", Value.int 3)], encoded := [],
      changes := [("subject", Value.str "hi")] }
    ⟨fun _ _ => Except.error Err.managerError,
     fun _ => Except.ok [], "2024-02-03T04:05:06Z"⟩).2.2.1
    (Value.int 3) [("id", Value.int 3)] [] Err.managerError rfl rfl rfl

/-- C2, counterexample: setting `project_id` rewrites `decoded['project']`
but does NOT drop the stale `encoded['project']` cache entry, and a
successful `save()` stamps `decoded['updated_on']` without dropping a cached
`encoded['updated_on']` — the claimed invariant fails on both counts. -/
theorem C2_cache_drop_counterexample :
    (resourceSetattr
      { cfg := baseConfig "Issue", conn := testConn (RaisePolicy.bool false),
        mgr := noFetchMgr,
        decoded := [("id", Value.int 1),
          ("project", Value.dict [("id", Value.int 1),
                                  ("name", Value.str "Old")])],
        encoded := [("project", Value.resource "Project"
          (Value.dict [("id", Value.int 1), ("name", Value.str "Old")]))],
        changes := [] } "project_id" (Value.int 5)).result = Except.ok () ∧
    AttrMap.find? (resourceSetattr
      { cfg := baseConfig "Issue", conn := testConn (RaisePolicy.bool false),
        mgr := noFetchMgr,
        decoded := [("id", Value.int 1),
          ("project", Value.dict [("id", Value.int 1),
                                  ("name", Value.str "Old")])],
        encoded := [("project", Value.resource "Project"
          (Value.dict [("id", Value.int 1), ("name", Value.str "Old")]))],
        changes := [] } "project_id" (Value.int 5)).state.decoded "project" =
      some (Value.dict [("id", Value.int 5)]) ∧
    AttrMap.find? (resourceSetattr
      { cfg := baseConfig "Issue", conn := testConn (RaisePolicy.bool false),
        mgr := noFetchMgr,
        decoded := [("id", Value.int 1),
          ("project", Value.dict [("id", Value.int 1),
                                  ("name", Value.str "Old")])],
        encoded := [("project", Value.resource "Project"
          (Value.dict [("id", Value.int 1), ("name", Value.str "Old")]))],
        changes := [] } "project_id" (Value.int 5)).state.encoded "project" =
      some (Value.resource "Project"
        (Value.dict [("id", Value.int 1), ("name", Value.str "Old")])) ∧
    (resourceSave
      { cfg := baseConfig "Issue", conn := testConn (RaisePolicy.bool false),
        mgr := noFetchMgr, decoded := [("id", Value.int 3)],
        encoded := [("updated_on", Value.datetime 9), ("id", Value.int 3)],
        changes := [] }
      ⟨fun _ _ => Except.ok (), fun _ => Except.ok [], "NOW"⟩).result =
      Except.ok true ∧
    AttrMap.find? (resourceSave
      { cfg := baseConfig "Issue", conn := testConn (RaisePolicy.bool false),
        mgr := noFetchMgr, decoded := [("id", Value.int 3)],
        encoded := [("updated_on", Value.datetime 9), ("id", Value.int 3)],
        changes := [] }
      ⟨fun _ _ => Except.ok (), fun _ => Except.ok [],
       "NOW"⟩).state.decoded "updated_on" = some (Value.str "NOW") ∧
    AttrMap.find? (resourceSave
      { cfg := baseConfig "Issue", conn := testConn (RaisePolicy.bool false),
        mgr := noFetchMgr, decoded := [("id", Value.int 3)],
        encoded := [("updated_on", Value.datetime 9), ("id", Value.int 3)],
        changes := [] }
      ⟨fun _ _ => Except.ok (), fun _ => Except.ok [],
       "NOW"⟩).state.encoded "updated_on" = some (Value.datetime 9) :=
  ⟨rfl, rfl, rfl, rfl, rfl, rfl⟩

/-- C2 amended: a permitted write `set(n, v)` drops exactly the `encoded`
entry for the (rename-resolved) written name `n` itself — the mirrored
composite attribute's cache entry is not dropped — and a successful `save()`
on a persisted instance leaves `encoded` exactly as identity resolution left
it, dropping nothing (in particular not `updated_on`). -/
theorem C2_amended_cache_drop :
    (∀ (s : RState) (a : String) (v : Value),
      s.cfg.renameOnSet a ∉ s.cfg.members →
      underscored (s.cfg.renameOnSet a) = false →
      ¬(s.cfg.renameOnSet a ∈ s.cfg.createReadonly ∧ s.isNew) →
      ¬(s.cfg.renameOnSet a ∈ s.cfg.updateReadonly ∧ ¬ s.isNew) →
      (resourceSetattr s a v).result = Except.ok () →
      (resourceSetattr s a v).state.encoded =
        AttrMap.pop s.encoded (s.cfg.renameOnSet a)) ∧
    (∀ (s : RState) (io : SaveIO) (idv : Value) (enc1 : AttrMap)
       (evs : List Event),
      s.isNew = false →
      resourceGetattr s "id" = ⟨Except.ok idv, enc1, evs⟩ →
      io.update idv s.changes = Except.ok () →
      (resourceSave s io).state.encoded = enc1) := by
  constructor
  · intro s a v hm hu h2 h3 hok
    have hdis := setattr_dispatch s a v hm hu h2 h3
    by_cases hcf : (s.cfg.renameOnSet a == "custom_fields") = true
    · rw [if_pos hcf] at hdis
      rw [hdis] at hok ⊢
      rcases setCustomFields_shape s (s.cfg.renameOnSet a) v with
        ⟨_, henc⟩ | ⟨e, herr, _⟩
      · exact henc
      · rw [herr] at hok
        simp at hok
    · rw [if_neg hcf] at hdis
      rw [hdis] at hok ⊢
      rcases setPlain_shape s (s.cfg.renameOnSet a) v with
        ⟨_, henc⟩ | ⟨herr, _⟩
      · exact henc
      · rw [herr] at hok
        simp at hok
  · intro s io idv enc1 evs hnew hid hupd
    unfold resourceSave
    rw [if_pos (show ¬(s.isNew = true) by rw [hnew]; exact Bool.false_ne_true)]
    rw [hid]
    dsimp only
    rw [hupd]

/-- Witness for the amended C2: the counterexample's `project_id` write drops
exactly its own cache entry (`project_id` was not cached, so the cache keeps
only the stale `project` entry). -/
theorem C2_amended_cache_drop_witness :
    (resourceSetattr
      { cfg := baseConfig "Issue", conn := testConn (RaisePolicy.bool false),
        mgr := noFetchMgr,
        decoded := [("id", Value.int 1),
          ("project", Value.dict [("id", Value.int 1),
                                  ("name", Value.str "Old")])],
        encoded := [("project", Value.resource "Project"
          (Value.dict [("id", Value.int 1), ("name", Value.str "Old")]))],
        changes := [] } "project_id" (Value.int 5)).state.encoded =
      AttrMap.pop
        [("project", Value.resource "Project"
          (Value.dict [("id", Value.int 1), ("name", Value.str "Old")]))]
        "project_id" :=
  C2_amended_cache_drop.1
    { cfg := baseConfig "Issue", conn := testConn (RaisePolicy.bool false),
      mgr := noFetchMgr,
      decoded := [("id", Value.int 1),
        ("project", Value.dict [("id", Value.int 1),
                                ("name", Value.str "Old")])],
      encoded := [("project", Value.resource "Project"
        (Value.dict [("id", Value.int 1), ("name", Value.str "Old")]))],
      changes := [] } "project_id" (Value.int 5)
    (by decide) (by decide) (by decide) (by decide) rfl

/-- C4, counterexample: on a `TimeEntry`, `set('from_date', v)` records the
renamed key `from` in `changes` but stores the value under the original key
`from_date` in `decoded` — the two maps do not use the same resulting key. -/
theorem C4_same_key_counterexample :
    (resourceSetattr
      { cfg := timeEntryConfig, conn := testConn (RaisePolicy.bool false),
        mgr := noFetchMgr, decoded := [], encoded := [], changes := [] }
      "from_date" (Value.str "2015-07-01")).result = Except.ok () ∧
    AttrMap.find? (resourceSetattr
      { cfg := timeEntryConfig, conn := testConn (RaisePolicy.bool false),
        mgr := noFetchMgr, decoded := [], encoded := [], changes := [] }
      "from_date" (Value.str "2015-07-01")).state.changes "from" =
      some (Value.str "2015-07-01") ∧
    AttrMap.find? (resourceSetattr
      { cfg := timeEntryConfig, conn := testConn (RaisePolicy.bool false),
        mgr := noFetchMgr, decoded := [], encoded := [], changes := [] }
      "from_date" (Value.str "2015-07-01")).state.changes "from_date" =
      Option.none ∧
    AttrMap.find? (resourceSetattr
      { cfg := timeEntryConfig, conn := testConn (RaisePolicy.bool false),
        mgr := noFetchMgr, decoded := [], encoded := [], changes := [] }
      "from_date" (Value.str "2015-07-01")).state.decoded "from_date" =
      some (Value.str "2015-07-01") ∧
    AttrMap.find? (resourceSetattr
      { cfg := timeEntryConfig, conn := testConn (RaisePolicy.bool false),
        mgr := noFetchMgr, decoded := [], encoded := [], changes := [] }
      "from_date" (Value.str "2015-07-01")).state.decoded "from" =
      Option.none :=
  ⟨rfl, rfl, rfl, rfl, rfl⟩

/-- C4 amended: a permitted plain write stores the decode result under the
decode-renamed key in `changes` but under the written name in `decoded`;
the single-id mirror sets the composite to `{id: decodedValue}`, the
multi-id mirror to one `{id: e}` stub per element, and the written name's
`encoded` entry is dropped. -/
theorem C4_amended_plain_write (s : RState) (a : String) (v : Value)
    (hm : s.cfg.renameOnSet a ∉ s.cfg.members)
    (hu : underscored (s.cfg.renameOnSet a) = false)
    (h2 : ¬(s.cfg.renameOnSet a ∈ s.cfg.createReadonly ∧ s.isNew))
    (h3 : ¬(s.cfg.renameOnSet a ∈ s.cfg.updateReadonly ∧ ¬ s.isNew))
    (hcf : (s.cfg.renameOnSet a == "custom_fields") = false) :
    (∀ comp,
      mapLookup SINGLE_ATTR_ID_MAP (s.cfg.renameOnSet a) = some comp →
      resourceSetattr s a v =
        ⟨Except.ok (),
         { s with
             changes := AttrMap.set s.changes
               (decodeAttr s.cfg s.conn (s.cfg.renameOnSet a) v).1
               (decodeAttr s.cfg s.conn (s.cfg.renameOnSet a) v).2,
             decoded := AttrMap.set
               (AttrMap.set s.decoded (s.cfg.renameOnSet a)
                 (decodeAttr s.cfg s.conn (s.cfg.renameOnSet a) v).2)
               comp
               (Value.dict [("id",
                 (decodeAttr s.cfg s.conn (s.cfg.renameOnSet a) v).2)]),
             encoded := AttrMap.pop s.encoded (s.cfg.renameOnSet a) }⟩) ∧
    (∀ comp elems,
      mapLookup SINGLE_ATTR_ID_MAP (s.cfg.renameOnSet a) = Option.none →
      mapLookup MULTIPLE_ATTR_ID_MAP (s.cfg.renameOnSet a) = some comp →
      pyIter (decodeAttr s.cfg s.conn (s.cfg.renameOnSet a) v).2 =
        some elems →
      resourceSetattr s a v =
        ⟨Except.ok (),
         { s with
             changes := AttrMap.set s.changes
               (decodeAttr s.cfg s.conn (s.cfg.renameOnSet a) v).1
               (decodeAttr s.cfg s.conn (s.cfg.renameOnSet a) v).2,
             decoded := AttrMap.set
               (AttrMap.set s.decoded (s.cfg.renameOnSet a)
                 (decodeAttr s.cfg s.conn (s.cfg.renameOnSet a) v).2)
               comp
               (Value.list (List.map (fun e => Value.dict [("id", e)]) elems)),
             encoded := AttrMap.pop s.encoded (s.cfg.renameOnSet a) }⟩) ∧
    (mapLookup SINGLE_ATTR_ID_MAP (s.cfg.renameOnSet a) = Option.none →
     mapLookup MULTIPLE_ATTR_ID_MAP (s.cfg.renameOnSet a) = Option.none →
      resourceSetattr s a v =
        ⟨Except.ok (),
         { s with
             changes := AttrMap.set s.changes
               (decodeAttr s.cfg s.conn (s.cfg.renameOnSet a) v).1
               (decodeAttr s.cfg s.conn (s.cfg.renameOnSet a) v).2,
             decoded := AttrMap.set s.decoded (s.cfg.renameOnSet a)
               (decodeAttr s.cfg s.conn (s.cfg.renameOnSet a) v).2,
             encoded := AttrMap.pop s.encoded (s.cfg.renameOnSet a) }⟩) := by
  have hdis := setattr_dispatch s a v hm hu h2 h3
  rw [if_neg (by rw [hcf]; exact Bool.false_ne_true)] at hdis
  refine ⟨?_, ?_, ?_⟩
  · intro comp hs
    rw [hdis]
    unfold setPlain
    dsimp only
    rw [hs]
  · intro comp elems hs hmu hit
    rw [hdis]
    unfold setPlain
    dsimp only
    rw [hs, hmu, hit]
  · intro hs hmu
    rw [hdis]
    unfold setPlain
    dsimp only
    rw [hs, hmu]

/-- Witness for the amended C4: the `from_date` write on a fresh `TimeEntry`
lands under `from` in `changes` and `from_date` in `decoded`. -/
theorem C4_amended_plain_write_witness :
    resourceSetattr
      { cfg := timeEntryConfig, conn := testConn (RaisePolicy.bool false),
        mgr := noFetchMgr, decoded := [], encoded := [], changes := [] }
      "from_date" (Value.str "2015-07-01") =
    ⟨Except.ok (),
     { cfg := timeEntryConfig, conn := testConn (RaisePolicy.bool false),
       mgr := noFetchMgr,
       decoded := [("from_date", Value.str "2015-07-01")], encoded := [],
       changes := [("from", Value.str "2015-07-01")] }⟩ :=
  (C4_amended_plain_write
    { cfg := timeEntryConfig, conn := testConn (RaisePolicy.bool false),
      mgr := noFetchMgr, decoded := [], encoded := [], changes := [] }
    "from_date" (Value.str "2015-07-01")
    (by decide) (by decide) (by decide) (by decide) (by decide)).2.2
    (by decide) (by decide)

/-- C5: a permitted `set('custom_fields', v)` requires `v` to be a sequence
of mappings each containing an `id` key and fails with
`CustomFieldValueError` otherwise (non-iterable input, or any element that
is not a mapping with an `id`), leaving the instance untouched; on
well-formed input with distinct (integer) ids, each incoming field is
decoded, stored fields matching an incoming id are replaced in place with
position preserved, the remaining incoming fields are appended in order, and
the merged list is recorded in both `decoded` and `changes` (the
`custom_fields` cache entry is dropped). -/
theorem C5_custom_fields_merge :
    (∀ (s : RState) (v : Value),
      s.cfg.renameOnSet "custom_fields" = "custom_fields" →
      "custom_fields" ∉ s.cfg.members →
      ¬("custom_fields" ∈ s.cfg.createReadonly ∧ s.isNew) →
      ¬("custom_fields" ∈ s.cfg.updateReadonly ∧ ¬ s.isNew) →
      pyIter v = Option.none →
      resourceSetattr s "custom_fields" v =
        ⟨Except.error Err.customFieldValueError, s⟩) ∧
    (∀ (s : RState) (v : Value) (fields : List Value) (f : Value),
      s.cfg.renameOnSet "custom_fields" = "custom_fields" →
      "custom_fields" ∉ s.cfg.members →
      ¬("custom_fields" ∈ s.cfg.createReadonly ∧ s.isNew) →
      ¬("custom_fields" ∈ s.cfg.updateReadonly ∧ ¬ s.isNew) →
      pyIter v = some fields → f ∈ fields → goodField f = false →
      resourceSetattr s "custom_fields" v =
        ⟨Except.error Err.customFieldValueError, s⟩) ∧
    (∀ (s : RState) (fields ex : List Value),
      s.cfg.renameOnSet "custom_fields" = "custom_fields" →
      "custom_fields" ∉ s.cfg.members →
      ¬("custom_fields" ∈ s.cfg.createReadonly ∧ s.isNew) →
      ¬("custom_fields" ∈ s.cfg.updateReadonly ∧ ¬ s.isNew) →
      (AttrMap.find? s.decoded "custom_fields" = some (Value.list ex) ∨
       (AttrMap.find? s.decoded "custom_fields" = Option.none ∧ ex = [])) →
      (∀ g ∈ ex, goodField g = true) →
      (∀ g ∈ ex, ∃ k : Int, fieldIdOf g = Value.int k) →
      List.Pairwise (fun a b => fieldIdOf a ≠ fieldIdOf b) ex →
      (∀ f ∈ fields, goodField f = true) →
      (∀ f ∈ fields, ∃ k : Int, fieldIdOf f = Value.int k) →
      List.Pairwise (fun a b => fieldIdOf a ≠ fieldIdOf b) fields →
      resourceSetattr s "custom_fields" (Value.list fields) =
        ⟨Except.ok (),
         { s with
             decoded := AttrMap.set s.decoded "custom_fields"
               (Value.list (specMergeCF s.cfg s.conn ex fields)),
             changes := AttrMap.set s.changes "custom_fields"
               (Value.list (specMergeCF s.cfg s.conn ex fields)),
             encoded := AttrMap.pop s.encoded "custom_fields" }⟩) := by
  have hdisp : ∀ (s : RState) (v : Value),
      s.cfg.renameOnSet "custom_fields" = "custom_fields" →
      "custom_fields" ∉ s.cfg.members →
      ¬("custom_fields" ∈ s.cfg.createReadonly ∧ s.isNew) →
      ¬("custom_fields" ∈ s.cfg.updateReadonly ∧ ¬ s.isNew) →
      resourceSetattr s "custom_fields" v =
        setCustomFields s "custom_fields" v := by
    intro s v hrn hm h2 h3
    have h := setattr_dispatch s "custom_fields" v
      (by rw [hrn]; exact hm) (by rw [hrn]; decide)
      (by rw [hrn]; exact h2) (by rw [hrn]; exact h3)
    rw [hrn] at h
    rw [h]
    rw [if_pos (by rfl)]
  refine ⟨?_, ?_, ?_⟩
  · intro s v hrn hm h2 h3 hiter
    rw [hdisp s v hrn hm h2 h3]
    unfold setCustomFields buildCFNew
    rw [hiter]
  · intro s v fields f hrn hm h2 h3 hiter hfmem hbad
    rw [hdisp s v hrn hm h2 h3]
    unfold setCustomFields
    cases hb : buildCFNew s.cfg s.conn v with
    | error e => rfl
    | ok d =>
      exfalso
      unfold buildCFNew at hb
      rw [hiter] at hb
      have := cfFold_ok_good s.cfg s.conn fields [] d hb f hfmem
      rw [hbad] at this
      exact Bool.false_ne_true this
  · intro s fields ex hrn hm h2 h3 hex hexgood hexint hexdist hfgood hfint
      hfdist
    rw [hdisp s (Value.list fields) hrn hm h2 h3]
    have hfbeq : List.Pairwise
        (fun a b => Value.beq (fieldIdOf a) (fieldIdOf b) = false) fields := by
      apply List.Pairwise.imp_of_mem ?_ hfdist
      intro a b ha hb hne
      obtain ⟨ka, hka⟩ := hfint a ha
      obtain ⟨kb, hkb⟩ := hfint b hb
      exact beq_ids_false a b ka kb hka hkb hne
    have hb : buildCFNew s.cfg s.conn (Value.list fields) =
        Except.ok (List.map
          (fun f => (fieldIdOf f, decodedField s.cfg s.conn f)) fields) := by
      unfold buildCFNew
      show List.foldlM (cfNewStep s.cfg s.conn) [] fields = _
      rw [cfFold_map s.cfg s.conn fields [] hfgood (fun f _ => rfl) hfbeq]
      rw [List.nil_append]
    unfold setCustomFields
    rw [hb]
    dsimp only
    rcases hex with hsome | ⟨hnone, hexnil⟩
    · rw [hsome]
      dsimp only
      rw [cfReplace_map_spec s.cfg s.conn ex fields hexgood hexint hfint
        hexdist]
      dsimp only
      rw [PyDict.values_map_fields]
      rfl
    · subst hexnil
      rw [hnone]
      dsimp only
      have hval : Value.list
          (PyDict.values (List.map
            (fun f => (fieldIdOf f, decodedField s.cfg s.conn f)) fields)) =
          Value.list (specMergeCF s.cfg s.conn [] fields) := by
        rw [PyDict.values_map_fields]
        unfold specMergeCF
        simp [List.any_nil]
      rw [hval]

/-- Witness for C5, the claim's concrete example: merging incoming
`[{id:2,value:"c"},{id:3,value:"d"}]` into stored
`[{id:1,value:"a"},{id:2,value:"b"}]` yields
`[{id:1,value:"a"},{id:2,value:"c"},{id:3,value:"d"}]`. -/
theorem C5_custom_fields_merge_witness :
    AttrMap.find? ((resourceSetattr
      { cfg := baseConfig "Project", conn := testConn (RaisePolicy.bool false),
        mgr := noFetchMgr,
        decoded := [("id", Value.int 10),
          ("custom_fields", Value.list
            [Value.dict [("id", Value.int 1), ("value", Value.str "a")],
             Value.dict [("id", Value.int 2), ("value", Value.str "b")]])],
        encoded := [], changes := [] } "custom_fields"
      (Value.list
        [Value.dict [("id", Value.int 2), ("value", Value.str "c")],
         Value.dict [("id", Value.int 3),
           ("value", Value.str "d")]])).state.decoded) "custom_fields" =
    some (Value.list
      [Value.dict [("id", Value.int 1), ("value", Value.str "a")],
       Value.dict [("id", Value.int 2), ("value", Value.str "c")],
       Value.dict [("id", Value.int 3), ("value", Value.str "d")]]) := by
  rw [C5_custom_fields_merge.2.2
    { cfg := baseConfig "Project", conn := testConn (RaisePolicy.bool false),
      mgr := noFetchMgr,
      decoded := [("id", Value.int 10),
        ("custom_fields", Value.list
          [Value.dict [("id", Value.int 1), ("value", Value.str "a")],
           Value.dict [("id", Value.int 2), ("value", Value.str "b")]])],
      encoded := [], changes := [] }
    [Value.dict [("id", Value.int 2), ("value", Value.str "c")],
     Value.dict [("id", Value.int 3), ("value", Value.str "d")]]
    [Value.dict [("id", Value.int 1), ("value", Value.str "a")],
     Value.dict [("id", Value.int 2), ("value", Value.str "b")]]
    rfl (by decide) (by decide) (by decide) (Or.inl rfl)
    (by
      intro g hg
      cases hg with
      | head => rfl
      | tail _ hg =>
        cases hg with
        | head => rfl
        | tail _ hg => cases hg)
    (by
      intro g hg
      cases hg with
      | head => exact ⟨1, rfl⟩
      | tail _ hg =>
        cases hg with
        | head => exact ⟨2, rfl⟩
        | tail _ hg => cases hg)
    (by
      refine List.Pairwise.cons ?_ (List.Pairwise.cons ?_ List.Pairwise.nil)
      · intro b hb
        cases hb with
        | head =>
          intro h
          have h' : Value.int 1 = Value.int 2 := h
          injection h' with h0
          exact absurd h0 (by decide)
        | tail _ hb => cases hb
      · intro b hb
        cases hb)
    (by
      intro f hf
      cases hf with
      | head => rfl
      | tail _ hf =>
        cases hf with
        | head => rfl
        | tail _ hf => cases hf)
    (by
      intro f hf
      cases hf with
      | head => exact ⟨2, rfl⟩
      | tail _ hf =>
        cases hf with
        | head => exact ⟨3, rfl⟩
        | tail _ hf => cases hf)
    (by
      refine List.Pairwise.cons ?_ (List.Pairwise.cons ?_ List.Pairwise.nil)
      · intro b hb
        cases hb with
        | head =>
          intro h
          have h' : Value.int 2 = Value.int 3 := h
          injection h' with h0
          exact absurd h0 (by decide)
        | tail _ hb => cases hb
      · intro b hb
        cases hb)]
  rfl

/-- Witness for C10: constructing an `Issue` seeds its `children` include as
a `None` placeholder. -/
theorem C10_none_like_absent_witness :
    AttrMap.find?
      (RState.init issueConfig (testConn (RaisePolicy.bool false)) noFetchMgr
        [("subject", Value.str "Fix")]).decoded "children" =
      some Value.none :=
  C10_none_like_absent.1 issueConfig (testConn (RaisePolicy.bool false))
    noFetchMgr [("subject", Value.str "Fix")] "children"
    (Or.inr (by decide)) (by decide)

/-- Witness for C3: a persisted `Project` rejects a write to the
update-readonly `identifier`, leaving the instance untouched. -/
theorem C3_readonly_guard_witness :
    resourceSetattr
      { cfg := projectConfig, conn := testConn (RaisePolicy.bool false),
        mgr := noFetchMgr, decoded := [("id", Value.int 1)], encoded := [],
        changes := [] } "identifier" (Value.str "new-slug") =
    ⟨Except.error Err.readonlyAttrError,
     { cfg := projectConfig, conn := testConn (RaisePolicy.bool false),
       mgr := noFetchMgr, decoded := [("id", Value.int 1)], encoded := [],
       changes := [] }⟩ :=
  C3_readonly_guard.1
    { cfg := projectConfig, conn := testConn (RaisePolicy.bool false),
      mgr := noFetchMgr, decoded := [("id", Value.int 1)], encoded := [],
      changes := [] } "identifier" (Value.str "new-slug") rfl (by decide)
    (by decide) (Or.inr ⟨by decide, by decide⟩)

/-- C9: for every attribute name that is not unconvertible, not mapped to a
related resource or related collection, and not `parent`, `encode(n, v)` is
total over all values: a string parsing under the date-time format returns
the parsed datetime; else a string parsing under the date format returns the
parsed date; and on any parse failure — including non-string values — the
value is returned unchanged rather than raising. -/
theorem C9_encode_plain_total (cfg : TypeConfig) (conn : Connection)
    (attr : String) (v : Value)
    (h1 : attr ∉ cfg.unconvertible)
    (h2 : mapLookup RESOURCE_MAP attr = Option.none)
    (h3 : mapLookup RESOURCE_SET_MAP attr = Option.none)
    (h4 : attr ≠ "parent") :
    (∀ s d, v = Value.str s → conn.parseDateTime s = some d →
        encodeAttr cfg conn attr v = (attr, Value.datetime d)) ∧
    (∀ s d, v = Value.str s → conn.parseDateTime s = Option.none →
        conn.parseDate s = some d →
        encodeAttr cfg conn attr v = (attr, Value.date d)) ∧
    (∀ s, v = Value.str s → conn.parseDateTime s = Option.none →
        conn.parseDate s = Option.none →
        encodeAttr cfg conn attr v = (attr, v)) ∧
    ((∀ s, v ≠ Value.str s) → encodeAttr cfg conn attr v = (attr, v)) := by
  have h4b : (attr == "parent") = false := by
    simpa using h4
  refine ⟨?_, ?_, ?_, ?_⟩
  · intro s d hv hdt
    subst hv
    simp [encodeAttr, h1, h2, h3, h4b, hdt]
  · intro s d hv hdt hd
    subst hv
    simp [encodeAttr, h1, h2, h3, h4b, hdt, hd]
  · intro s hv hdt hd
    subst hv
    simp [encodeAttr, h1, h2, h3, h4b, hdt, hd]
  · intro hns
    unfold encodeAttr
    rw [h2, h3]
    simp only [h1, if_false, h4b]
    cases v with
    | str s => exact absurd rfl (hns s)
    | none => rfl
    | int n => rfl
    | date d => rfl
    | datetime d => rfl
    | dict fs => rfl
    | list l => rfl
    | resource t p => rfl
    | resourceSet t p => rfl
    | collection t f => rfl

/-- Witness for C9: `due_date` with the test connection's date string encodes
to the parsed date. -/
theorem C9_encode_plain_total_witness :
    encodeAttr (baseConfig "Version") (testConn (RaisePolicy.bool false))
      "due_date" (Value.str "2024-01-02") = ("due_date", Value.date 12) :=
  (C9_encode_plain_total (baseConfig "Version")
    (testConn (RaisePolicy.bool false)) "due_date" (Value.str "2024-01-02")
    (by decide) (by decide) (by decide)
    (by decide)).2.1 "2024-01-02" 12 rfl (by decide) (by decide)

/-- C7, counterexample: the claim says that when any attribute of a tuple
resolves to empty/absent the whole tuple is abandoned and the next tuple is
tried. The code's reverse-order scan merely breaks at the first absent value
and keeps what it already collected, and a tuple is accepted whenever that
part is non-empty — the next tuple is never tried. On a persisted `User`
knowing `id`, `lastname` and `name` but not `firstname`, the claim's rule
falls through to the `('id', 'name')` tuple (display list `["Mr Doe"]`,
structured list `[5, "Mr Doe"]`) while the code accepts the partially
resolved first tuple with just `["Doe"]`. -/
theorem C7_representation_counterexample :
    Except.map (fun t => (t.1, t.2.1)) (representationLists userDoeState) =
      Except.ok ([Value.str "Doe"], [Value.str "Doe"]) ∧
    ((specRepresentationLists userDoeState).1,
     (specRepresentationLists userDoeState).2.1) =
      ([Value.str "Mr Doe"], [Value.int 5, Value.str "Mr Doe"]) ∧
    (([Value.str "Doe"], [Value.str "Doe"]) :
        List Value × List Value) ≠
      ([Value.str "Mr Doe"], [Value.int 5, Value.str "Mr Doe"]) := by
  refine ⟨rfl, rfl, ?_⟩
  intro h
  have h1 : ([Value.str "Doe"] : List Value) = [Value.str "Mr Doe"] :=
    congrArg Prod.fst h
  injection h1 with h2 h3
  injection h2 with h4
  exact absurd h4 (by decide)

/-- C7 amended: the reverse-order scan stops at the first absent value but
keeps the already-resolved suffix of the tuple; a tuple is abandoned (and
the next one tried) only when its last attribute — the first one visited —
is itself absent, so a partially resolved tuple is accepted and later
tuples are never reached. The new-instance truncation applies when more
than two values actually resolved, not when the tuple has more than two
attributes. The claim's example does display `"Fix bug"`, but not by
falling to the second tuple: on a new instance `id` resolves to the default
`0` (it is not absent), the first tuple is accepted in full, and the
display omits the identity because the scan never adds `id` to `_str_`. -/
theorem C7_amended_representation :
    (∀ (s : RState) (a b : String) (rest : List String)
       (tuples : List (List String)) (v : Value),
      (resourceGetattr s a).result = Except.ok v →
      Value.isNone v = false →
      absentGet (resourceGetattr
        { s with encoded := (resourceGetattr s a).encoded } b).result →
      reprTuplesLoop s ((rest ++ [b, a]) :: tuples) =
        Except.ok ((if a == "id" then [] else [v]), [v],
          { s with encoded := (resourceGetattr
            { s with encoded := (resourceGetattr s a).encoded }
              b).encoded })) ∧
    (∀ (s : RState) (a : String) (rest : List String)
       (tuples : List (List String)),
      absentGet (resourceGetattr s a).result →
      reprTuplesLoop s ((rest ++ [a]) :: tuples) =
        reprTuplesLoop { s with encoded := (resourceGetattr s a).encoded }
          tuples) ∧
    Except.map (fun t => (t.1, t.2.1))
        (representationLists issueNewFixBug) =
      Except.ok ([Value.str "Fix bug"],
        [Value.int 0, Value.str "Fix bug"]) ∧
    resourceStr issueNewFixBug = Except.ok "Fix bug" ∧
    Except.map (fun t => (t.1, t.2.1))
        (representationLists userNewJohnDoe) =
      Except.ok ([Value.str "John"], [Value.int 0, Value.str "John"]) := by
  refine ⟨?_, ?_, rfl, rfl, rfl⟩
  · intro s a b rest tuples v hv hnn hab
    have hrev : (rest ++ [b, a]).reverse = a :: b :: rest.reverse := by
      simp
    have hscan : reprScan s (a :: b :: rest.reverse) [] [] =
        Except.ok ((if a == "id" then [] else [v]), [v],
          { s with encoded := (resourceGetattr
            { s with encoded := (resourceGetattr s a).encoded }
              b).encoded }) := by
      unfold reprScan
      dsimp only
      rw [hv]
      dsimp only
      rw [if_neg (by rw [hnn]; exact Bool.false_ne_true)]
      unfold reprScan
      dsimp only
      rcases hab with h | h | h
      · rw [h]
      · rw [h]
      · rw [h]
        dsimp only
        rw [if_pos (show Value.isNone Value.none = true from rfl)]
    unfold reprTuplesLoop
    rw [hrev, hscan]
    dsimp only
    rw [if_pos (show ([v] : List Value).length > 0 by simp)]
  · intro s a rest tuples hab
    have hrev : (rest ++ [a]).reverse = a :: rest.reverse := by
      simp
    have hscan : reprScan s (a :: rest.reverse) [] [] =
        Except.ok ([], [],
          { s with encoded := (resourceGetattr s a).encoded }) := by
      unfold reprScan
      dsimp only
      rcases hab with h | h | h
      · rw [h]
      · rw [h]
      · rw [h]
        dsimp only
        rw [if_pos (show Value.isNone Value.none = true from rfl)]
    unfold reprTuplesLoop
    rw [hrev, hscan]
    dsimp only
    rw [if_neg (by decide)]
    cases tuples with
    | nil => rfl
    | cons t ts => rfl

/-- Witness for the amended C7, at the counterexample instance: the first
tuple of the persisted `User` is accepted with only the resolved `lastname`
suffix, and the `('id', 'name')` tuple is never tried. -/
theorem C7_amended_representation_witness :
    reprTuplesLoop userDoeState
        [["id", "firstname", "lastname"], ["id", "name"]] =
      Except.ok ([Value.str "Doe"], [Value.str "Doe"],
        { cfg := userConfig, conn := testConn (RaisePolicy.bool false),
          mgr := noFetchMgr,
          decoded := [("id", Value.int 5), ("lastname", Value.str "Doe"),
                      ("name", Value.str "Mr Doe")],
          encoded := [("lastname", Value.str "Doe")], changes := [] }) :=
  C7_amended_representation.1 userDoeState "lastname" "firstname" ["id"]
    [["id", "name"]] (Value.str "Doe") rfl rfl (Or.inr (Or.inr rfl))

end Redmine
